import Mathlib

/-!
Shallow embedding of the statement parsing engine of src/parsers.py
(budget-app repository): amount and date normalizers, the per-institution
regex based transaction scanners, metadata extraction, the strategy
selector, and the ParseResult envelope. Regular expressions from the
source are embedded as bespoke deterministic scanners that follow the
backtracking order of the Python `re` engine for those exact patterns.
Python floats are modelled by exact rationals; character classes are
modelled over the ASCII range plus the literal characters appearing in
the source patterns.
-/

/-- Whitespace characters matched by the regex class backslash-s and by
Python str.strip in the ASCII range. -/
def isPyWs (c : Char) : Bool :=
  c == ' ' || c == '\t' || c == '\n' || c == '\r' || c == '\x0b' || c == '\x0c'

/-- Word characters of the regex class backslash-w in the ASCII range. -/
def isWordC (c : Char) : Bool := c.isAlpha || c.isDigit || c == '_'

/-- Model of Python str.lower for ASCII text. -/
def pyLower (s : String) : String := ⟨s.data.map Char.toLower⟩

/-- Lower-casing on character lists. -/
def lowerL (cs : List Char) : List Char := cs.map Char.toLower

/-- Containment test modelling the Python `in` operator on strings. -/
def hasSubList (needle : List Char) : List Char → Bool
  | [] => needle.isEmpty
  | c :: rest => needle.isPrefixOf (c :: rest) || hasSubList needle rest

/-- String containment: pat occurs inside hay. -/
def strContains (hay pat : String) : Bool := hasSubList pat.data hay.data

/-- Model of Python str.strip with no argument, on character lists. -/
def pyStripL (cs : List Char) : List Char :=
  ((cs.dropWhile isPyWs).reverse.dropWhile isPyWs).reverse

/-- Model of Python str.strip with no argument. -/
def pyStrip (s : String) : String := ⟨pyStripL s.data⟩

/-- Numeric value of a decimal digit string. -/
def digitsToNat (cs : List Char) : Nat := cs.foldl (fun a c => 10 * a + (c.toNat - 48)) 0

/-- Scale a rational by a power of ten given by a possibly negative exponent. -/
def applyExp (q : ℚ) (e : Int) : ℚ := if 0 ≤ e then q * 10 ^ e.toNat else q / 10 ^ (-e).toNat

/-- Exponent digits of a float literal: all remaining characters must be digits. -/
def expDigits (cs : List Char) : Option Nat :=
  if cs.isEmpty || !(cs.all Char.isDigit) then none else some (digitsToNat cs)

/-- Optional exponent part of a float literal; empty input means exponent zero. -/
def parseExpPart : List Char → Option Int
  | [] => some 0
  | c :: rest =>
    if c == 'e' || c == 'E' then
      match rest with
      | '+' :: r2 => (expDigits r2).map Int.ofNat
      | '-' :: r2 => (expDigits r2).map (fun n => -(n : Int))
      | r2 => (expDigits r2).map Int.ofNat
    else none

/-- Unsigned body of a Python float literal: digits, an optional fractional
part, and an optional exponent. Models the numeric core of the grammar
accepted by the Python float constructor (named constants and underscore
separators are outside the modelled grammar), with exact rational values. -/
def pyFloatCore (cs : List Char) : Option ℚ :=
  match cs.dropWhile Char.isDigit with
  | '.' :: r2 =>
    if (cs.takeWhile Char.isDigit).isEmpty && (r2.takeWhile Char.isDigit).isEmpty then none
    else (parseExpPart (r2.dropWhile Char.isDigit)).map (fun e =>
      applyExp ((digitsToNat (cs.takeWhile Char.isDigit) : ℚ) +
        (digitsToNat (r2.takeWhile Char.isDigit) : ℚ) / 10 ^ (r2.takeWhile Char.isDigit).length) e)
  | r1 =>
    if (cs.takeWhile Char.isDigit).isEmpty then none
    else (parseExpPart r1).map (fun e => applyExp (digitsToNat (cs.takeWhile Char.isDigit) : ℚ) e)

/-- Model of the Python float constructor on a trimmed string: an optional
sign followed by the unsigned body; failure is None. -/
def pyFloatOpt (cs : List Char) : Option ℚ :=
  match cs with
  | '+' :: r => pyFloatCore r
  | '-' :: r => (pyFloatCore r).map (fun q => -q)
  | r => pyFloatCore r

/-- First cleaning step of the amount normalizer: drop currency symbols,
thousands separators and whitespace, as the substitution of the class
containing the dollar sign, the comma and backslash-s does. -/
def cleanAmount (cs : List Char) : List Char :=
  cs.filter (fun c => !(c == '$' || c == ',' || isPyWs c))

/-- Parenthesized negatives: a leading open and trailing close parenthesis
are replaced by a leading minus sign. -/
def parenStep (cs : List Char) : List Char :=
  if cs.head? == some '(' && cs.getLast? == some ')' then '-' :: (cs.drop 1).dropLast else cs

/-- Credit suffix: a trailing capital C R pair is dropped and a minus sign
is prepended. -/
def crStep (cs : List Char) : List Char :=
  if cs.reverse.take 2 == ['R', 'C'] then '-' :: cs.dropLast.dropLast else cs

/-- Residual text of the amount normalizer after cleaning, the parenthesis
rule and the credit-suffix rule, fed to the float conversion. -/
def amountResidual (s : String) : List Char := crStep (parenStep (cleanAmount s.data))

/-- Model of StatementParser._parse_amount: total, returns zero when the
residual text is not numeric. -/
def parse_amount (s : String) : ℚ := (pyFloatOpt (amountResidual s)).getD 0

/-- Calendar date produced by the date normalizer. -/
structure PyDate where
  year : Nat
  month : Nat
  day : Nat
deriving DecidableEq, Repr

/-- Gregorian leap year test as used by the Python datetime module. -/
def isLeapYear (y : Nat) : Bool := y % 4 == 0 && (y % 100 != 0 || y % 400 == 0)

/-- Number of days of a month in a given year. -/
def daysInMonth (y m : Nat) : Nat :=
  if m == 2 then (if isLeapYear y then 29 else 28)
  else if m == 4 || m == 6 || m == 9 || m == 11 then 30
  else 31

/-- Datetime construction: validates the year, month and day ranges the
way the datetime constructor does, returning None on a range error. -/
def mkDate (y m d : Nat) : Option PyDate :=
  if 1 ≤ y ∧ y ≤ 9999 ∧ 1 ≤ m ∧ m ≤ 12 ∧ 1 ≤ d ∧ d ≤ daysInMonth y m then
    some ⟨y, m, d⟩
  else none

/-- Numeric value of one digit character. -/
def digitVal (c : Char) : Nat := c.toNat - 48

/-- Candidate matches of the strptime month directive, two-digit forms
first, then a single digit one through nine, in regex trial order. -/
def monthNumCands : List Char → List (Nat × List Char)
  | a :: b :: r =>
    (if a.isDigit ∧ b.isDigit ∧ ((a = '1' ∧ b ≤ '2') ∨ (a = '0' ∧ '1' ≤ b)) then
       [(digitVal a * 10 + digitVal b, r)] else []) ++
    (if '1' ≤ a ∧ a ≤ '9' then [(digitVal a, b :: r)] else [])
  | [a] => if '1' ≤ a ∧ a ≤ '9' then [(digitVal a, [])] else []
  | [] => []

/-- Candidate matches of the strptime day directive, two-digit forms
first, then a single digit one through nine, in regex trial order. -/
def dayCands : List Char → List (Nat × List Char)
  | a :: b :: r =>
    (if a.isDigit ∧ b.isDigit ∧
        ((a = '3' ∧ b ≤ '1') ∨ ('1' ≤ a ∧ a ≤ '2') ∨ (a = '0' ∧ '1' ≤ b)) then
       [(digitVal a * 10 + digitVal b, r)] else []) ++
    (if '1' ≤ a ∧ a ≤ '9' then [(digitVal a, b :: r)] else [])
  | [a] => if '1' ≤ a ∧ a ≤ '9' then [(digitVal a, [])] else []
  | [] => []

/-- Four-digit year directive: exactly four digits. -/
def year4At : List Char → Option (Nat × List Char)
  | a :: b :: c :: d :: r =>
    if a.isDigit ∧ b.isDigit ∧ c.isDigit ∧ d.isDigit then
      some (digitVal a * 1000 + digitVal b * 100 + digitVal c * 10 + digitVal d, r)
    else none
  | _ => none

/-- Two-digit year directive with the strptime century rule: values up to
sixty-eight map to the two-thousands, the rest to the nineteen-hundreds. -/
def year2At : List Char → Option (Nat × List Char)
  | a :: b :: r =>
    if a.isDigit ∧ b.isDigit then
      let v := digitVal a * 10 + digitVal b
      some ((if v ≤ 68 then 2000 + v else 1900 + v), r)
    else none
  | _ => none

/-- Length of the leading run of characters satisfying a class. -/
def runLen (p : Char → Bool) (cs : List Char) : Nat := (cs.takeWhile p).length

/-- Mandatory whitespace of a strptime format: at least one character. -/
def wsPlusAt (cs : List Char) : Option (List Char) :=
  let n := runLen isPyWs cs
  if n = 0 then none else some (cs.drop n)

/-- Abbreviated month names with their numbers, as in the C locale. -/
def monthAbbrevs : List (String × Nat) :=
  [("jan", 1), ("feb", 2), ("mar", 3), ("apr", 4), ("may", 5), ("jun", 6),
   ("jul", 7), ("aug", 8), ("sep", 9), ("oct", 10), ("nov", 11), ("dec", 12)]

/-- Full month names with their numbers, as in the C locale. -/
def monthFulls : List (String × Nat) :=
  [("january", 1), ("february", 2), ("march", 3), ("april", 4), ("may", 5),
   ("june", 6), ("july", 7), ("august", 8), ("september", 9), ("october", 10),
   ("november", 11), ("december", 12)]

/-- Case-insensitive literal match at the front of the input, returning
the remainder on success. -/
def ciStartsWith (pat cs : List Char) : Option (List Char) :=
  if lowerL (cs.take pat.length) = lowerL pat ∧ pat.length ≤ cs.length then
    some (cs.drop pat.length)
  else none

/-- Month-name directive: the first name in the table that matches the
input case-insensitively is taken. -/
def monthNameAt (names : List (String × Nat)) (cs : List Char) : Option (Nat × List Char) :=
  names.findSome? (fun nm => (ciStartsWith nm.1.data cs).map (fun r => (nm.2, r)))

/-- Regex phase of a full numeric date format (month, day, year separated
by a fixed character), with the backtracking order of the compiled
strptime expression; the year is two-digit when the flag is set. The whole
input must be consumed. Returns month, day, year. -/
def runFmtMDY (sep : Char) (twoDigitYear : Bool) (cs : List Char) : Option (Nat × Nat × Nat) :=
  (monthNumCands cs).findSome? (fun mc =>
    match mc.2 with
    | c :: r1 =>
      if c = sep then
        (dayCands r1).findSome? (fun dc =>
          match dc.2 with
          | c2 :: r2 =>
            if c2 = sep then
              match (if twoDigitYear then year2At r2 else year4At r2) with
              | some (y, rest) => if rest.isEmpty then some (mc.1, dc.1, y) else none
              | none => none
            else none
          | [] => none)
      else none
    | [] => none)

/-- Regex phase of the month-slash-day format with no year. -/
def runFmtMD (cs : List Char) : Option (Nat × Nat) :=
  (monthNumCands cs).findSome? (fun mc =>
    match mc.2 with
    | '/' :: r1 =>
      (dayCands r1).findSome? (fun dc => if dc.2.isEmpty then some (mc.1, dc.1) else none)
    | _ => none)

/-- Regex phase of a month-name-then-day format with no year. -/
def runFmtNameDay (names : List (String × Nat)) (cs : List Char) : Option (Nat × Nat) :=
  match monthNameAt names cs with
  | some (m, r1) =>
    match wsPlusAt r1 with
    | some r2 => (dayCands r2).findSome? (fun dc => if dc.2.isEmpty then some (m, dc.1) else none)
    | none => none
  | none => none

/-- Regex phase of a day-then-month-name format with no year. -/
def runFmtDayName (names : List (String × Nat)) (cs : List Char) : Option (Nat × Nat) :=
  (dayCands cs).findSome? (fun dc =>
    match wsPlusAt dc.2 with
    | some r1 =>
      match monthNameAt names r1 with
      | some (m, rest) => if rest.isEmpty then some (m, dc.1) else none
      | none => none
    | none => none)

/-- The nine date formats tried by StatementParser._parse_date, in source
order: full numeric with four- or two-digit year, slash or dash separated,
month slash day, and the four month-name orderings. -/
inductive DateFmt where
  | mdY | mdy | mdYdash | mdydash | md | bd | Bd | db | dB
deriving DecidableEq, Repr

/-- Year replacement applied after parsing a year-less format: the parse
defaults to the year nineteen-hundred and a truthy supplied year replaces
it, with datetime range validation on both constructions. -/
def applyYearRepl (year : Option Nat) (m d : Nat) : Option PyDate :=
  match mkDate 1900 m d with
  | none => none
  | some p =>
    match year with
    | some y => if y ≠ 0 then mkDate y m d else some p
    | none => some p

/-- One strptime attempt of _parse_date: regex phase first, then datetime
validation, then the year replacement for year-less formats; any failure
makes the loop move to the next format. -/
def tryFormat (f : DateFmt) (cs : List Char) (year : Option Nat) : Option PyDate :=
  match f with
  | .mdY => match runFmtMDY '/' false cs with
            | some (m, d, y) => mkDate y m d
            | none => none
  | .mdy => match runFmtMDY '/' true cs with
            | some (m, d, y) => mkDate y m d
            | none => none
  | .mdYdash => match runFmtMDY '-' false cs with
                | some (m, d, y) => mkDate y m d
                | none => none
  | .mdydash => match runFmtMDY '-' true cs with
                | some (m, d, y) => mkDate y m d
                | none => none
  | .md => match runFmtMD cs with
           | some (m, d) => applyYearRepl year m d
           | none => none
  | .bd => match runFmtNameDay monthAbbrevs cs with
           | some (m, d) => applyYearRepl year m d
           | none => none
  | .Bd => match runFmtNameDay monthFulls cs with
           | some (m, d) => applyYearRepl year m d
           | none => none
  | .db => match runFmtDayName monthAbbrevs cs with
           | some (m, d) => applyYearRepl year m d
           | none => none
  | .dB => match runFmtDayName monthFulls cs with
           | some (m, d) => applyYearRepl year m d
           | none => none

/-- Format list of StatementParser._parse_date in source order. -/
def dateFormats : List DateFmt :=
  [.mdY, .mdy, .mdYdash, .mdydash, .md, .bd, .Bd, .db, .dB]

/-- Model of StatementParser._parse_date: the input is stripped, the
formats are tried in order, the first success wins, and None is returned
when no format fits. -/
def parse_date (s : String) (year : Option Nat) : Option PyDate :=
  dateFormats.findSome? (fun f => tryFormat f (pyStripL s.data) year)

/-- Regex phase of the strptime call on a full month name, a day and a
four-digit year used by the statement-period extraction. -/
def strptimeBdYRegex (cs : List Char) : Option (Nat × Nat × Nat) :=
  match monthNameAt monthFulls cs with
  | some (m, r1) =>
    match wsPlusAt r1 with
    | some r2 =>
      (dayCands r2).findSome? (fun dc =>
        match wsPlusAt dc.2 with
        | some r3 =>
          match year4At r3 with
          | some (y, rest) => if rest.isEmpty then some (m, dc.1, y) else none
          | none => none
        | none => none)
    | none => none
  | none => none

/-- Strptime on the full-month-name day year format, with datetime
validation after the regex phase. -/
def strptimeBdY (cs : List Char) : Option PyDate :=
  match strptimeBdYRegex cs with
  | some (m, d, y) => mkDate y m d
  | none => none

/-- Decimal rendering of a natural number, fuel-based so that it reduces
in the kernel; the fuel bounds the number of digits. -/
def natDecAux : Nat → Nat → List Char
  | 0, _ => []
  | fuel + 1, n =>
    if n < 10 then [Char.ofNat (48 + n)]
    else natDecAux fuel (n / 10) ++ [Char.ofNat (48 + n % 10)]

/-- Decimal rendering of a natural number, used to model strftime. -/
def natDec (n : Nat) : List Char := natDecAux (n + 1) n

/-- Two-digit zero-padded rendering used by the month directive of
strftime. -/
def pad2 (n : Nat) : List Char := if n < 10 then '0' :: natDec n else natDec n

/-- Model of strftime with the year-dash-month format used for statement
periods: the year is rendered unpadded, the month zero-padded to two. -/
def fmtYm (y m : Nat) : String := ⟨natDec y ++ '-' :: pad2 m⟩

/-- One transaction extracted from a statement. -/
structure ExtractedTransaction where
  date : PyDate
  merchant : String
  amount : ℚ
  transaction_type : String
  raw_text : String
deriving DecidableEq, Repr

/-- Result envelope of one parse attempt. -/
structure ParseResult where
  success : Bool
  institution : String
  account_type : String
  account_identifier : Option String
  statement_period : Option String
  transactions : List ExtractedTransaction
  error_message : Option String
deriving DecidableEq, Repr

/-- Digits and commas, the class inside the amount patterns. -/
def isDigitComma (c : Char) : Bool := c.isDigit || c == ','

/-- Uppercase letters and digits, the reference class of the second Amex
pattern. -/
def isAZ09 (c : Char) : Bool := c.isUpper || c.isDigit

/-- End-of-line test of the dollar anchor under the multiline flag. -/
def atEol : List Char → Bool
  | [] => true
  | c :: _ => c == '\n'

/-- Signed amount pattern: optional minus sign, optional dollar sign, a
nonempty run of digits and commas, a dot and exactly two digits. Returns
the matched text and the remainder. -/
def signedAmtAt (cs : List Char) : Option (List Char × List Char) :=
  let (sgn, r1) := match cs with
    | '-' :: r => (['-'], r)
    | r => (([] : List Char), r)
  let (dol, r2) := match r1 with
    | '$' :: r => (['$'], r)
    | r => (([] : List Char), r)
  let run := r2.takeWhile isDigitComma
  if run.isEmpty then none
  else
    match r2.drop run.length with
    | '.' :: d1 :: d2 :: rest =>
      if d1.isDigit ∧ d2.isDigit then some (sgn ++ dol ++ run ++ '.' :: [d1, d2], rest)
      else none
    | _ => none

/-- Unsigned amount pattern: a nonempty run of digits and commas, a dot
and exactly two digits. -/
def unsignedAmtAt (cs : List Char) : Option (List Char × List Char) :=
  let run := cs.takeWhile isDigitComma
  if run.isEmpty then none
  else
    match cs.drop run.length with
    | '.' :: d1 :: d2 :: rest =>
      if d1.isDigit ∧ d2.isDigit then some (run ++ '.' :: [d1, d2], rest)
      else none
    | _ => none

/-- First success over a list of candidate numbers, in list order. -/
def firstSomeD {α : Type} (f : Nat → Option α) : List Nat → Option α
  | [] => none
  | n :: ns =>
    match f n with
    | some a => some a
    | none => firstSomeD f ns

/-- Descending range list from hi down to lo. -/
def descRange (hi lo : Nat) : List Nat := (List.range (hi + 1 - lo)).map (fun i => hi - i)

/-- Ascending range list from lo up to hi. -/
def ascRange (lo hi : Nat) : List Nat := (List.range (hi + 1 - lo)).map (fun i => lo + i)

/-- Capture record of the three-group transaction patterns: date text,
description text, amount text and the whole matched line. -/
structure TxMatch3 where
  g1 : String
  g2 : String
  g3 : String
  raw : String
deriving DecidableEq, Repr

/-- Capture record of the four-group Truist column pattern; the debit and
credit captures are optional. -/
structure TxMatch4 where
  g1 : String
  g2 : String
  g3 : Option String
  g4 : Option String
  raw : String
deriving DecidableEq, Repr

/-- Two digits, a slash, two digits: the date prefix shared by the Chase,
Amex and Truist transaction patterns. -/
def dateDDslDD : List Char → Option (List Char × List Char)
  | a :: b :: s :: c :: d :: rest =>
    if a.isDigit ∧ b.isDigit ∧ s = '/' ∧ c.isDigit ∧ d.isDigit then
      some ([a, b, '/', c, d], rest)
    else none
  | _ => none

/-- Match of the pattern date, whitespace, lazy description, whitespace,
signed amount, used by the Chase strategy and as the second Truist
pattern. The whitespace after the date is tried longest first and the lazy
description shortest first, as the regex engine does; the description
cannot cross a line break. -/
def simpleTxAt (cs : List Char) : Option (TxMatch3 × List Char) :=
  match dateDDslDD cs with
  | none => none
  | some (g1, r1) =>
    let l1max := runLen isPyWs r1
    firstSomeD (fun l1 =>
      let afterWs := r1.drop l1
      let mMax := runLen (fun c => c != '\n') afterWs
      firstSomeD (fun k =>
        let merchant := afterWs.take k
        let tail := afterWs.drop k
        let l2 := runLen isPyWs tail
        if l2 = 0 then none
        else
          match signedAmtAt (tail.drop l2) with
          | some (g3, rest) =>
            some (⟨⟨g1⟩, ⟨merchant⟩, ⟨g3⟩, ⟨cs.take (cs.length - rest.length)⟩⟩, rest)
          | none => none)
        (ascRange 1 mMax))
      (descRange l1max 1)

/-- Date alternatives of the first Amex pattern: two digits, a slash, two
digits, an optional slash and up to two digits, produced in greedy trial
order. -/
def amexDateCands (cs : List Char) : List (List Char × List Char) :=
  match dateDDslDD cs with
  | none => []
  | some (g1, rest) =>
    (match rest with
     | '/' :: r1 =>
       (match r1 with
        | a :: b :: r2 => if a.isDigit ∧ b.isDigit then [(g1 ++ '/' :: [a, b], r2)] else []
        | _ => []) ++
       (match r1 with
        | a :: r2 => if a.isDigit then [(g1 ++ ['/', a], r2)] else []
        | _ => []) ++
       [(g1 ++ ['/'], r1)]
     | _ => []) ++
    (match rest with
     | a :: b :: r2 => if a.isDigit ∧ b.isDigit then [(g1 ++ [a, b], r2)] else []
     | _ => []) ++
    (match rest with
     | a :: r2 => if a.isDigit then [(g1 ++ [a], r2)] else []
     | _ => []) ++
    [(g1, rest)]

/-- Match of the first Amex pattern: extended date, whitespace, lazy
description, whitespace, signed amount, anchored at end of line. -/
def amexTx1At (cs : List Char) : Option (TxMatch3 × List Char) :=
  (amexDateCands cs).findSome? (fun dc =>
    let l1max := runLen isPyWs dc.2
    firstSomeD (fun l1 =>
      let afterWs := dc.2.drop l1
      let mMax := runLen (fun c => c != '\n') afterWs
      firstSomeD (fun k =>
        let merchant := afterWs.take k
        let tail := afterWs.drop k
        let l2 := runLen isPyWs tail
        if l2 = 0 then none
        else
          match signedAmtAt (tail.drop l2) with
          | some (g3, rest) =>
            if atEol rest then
              some (⟨⟨dc.1⟩, ⟨merchant⟩, ⟨g3⟩, ⟨cs.take (cs.length - rest.length)⟩⟩, rest)
            else none
          | none => none)
        (ascRange 1 mMax))
      (descRange l1max 1))

/-- Match of the second Amex pattern: date, whitespace, lazy description,
whitespace, an uppercase-or-digit reference run, whitespace, signed
amount. -/
def amexTx2At (cs : List Char) : Option (TxMatch3 × List Char) :=
  match dateDDslDD cs with
  | none => none
  | some (g1, r1) =>
    let l1max := runLen isPyWs r1
    firstSomeD (fun l1 =>
      let afterWs := r1.drop l1
      let mMax := runLen (fun c => c != '\n') afterWs
      firstSomeD (fun k =>
        let merchant := afterWs.take k
        let tail := afterWs.drop k
        let l2 := runLen isPyWs tail
        if l2 = 0 then none
        else
          let t2 := tail.drop l2
          let refLen := runLen isAZ09 t2
          if refLen = 0 then none
          else
            let t3 := t2.drop refLen
            let l3 := runLen isPyWs t3
            if l3 = 0 then none
            else
              match signedAmtAt (t3.drop l3) with
              | some (g3, rest) =>
                some (⟨⟨g1⟩, ⟨merchant⟩, ⟨g3⟩, ⟨cs.take (cs.length - rest.length)⟩⟩, rest)
              | none => none)
        (ascRange 1 mMax))
      (descRange l1max 1)

/-- First Truist column alternative: debit and credit both present, then
mandatory whitespace, the balance and end of line. -/
def truistB1 (p : List Char) : Option ((Option (List Char) × Option (List Char)) × List Char) :=
  match unsignedAmtAt p with
  | some (g3, p1) =>
    match unsignedAmtAt (p1.drop (runLen isPyWs p1)) with
    | some (g4, p3) =>
      if runLen isPyWs p3 = 0 then none
      else
        match unsignedAmtAt (p3.drop (runLen isPyWs p3)) with
        | some (_, p5) => if atEol p5 then some ((some g3, some g4), p5) else none
        | none => none
    | none => none
  | none => none

/-- Second Truist column alternative: debit only, then mandatory
whitespace, the balance and end of line. -/
def truistB2 (p : List Char) : Option ((Option (List Char) × Option (List Char)) × List Char) :=
  match unsignedAmtAt p with
  | some (g3, p1) =>
    if runLen isPyWs p1 = 0 then none
    else
      match unsignedAmtAt (p1.drop (runLen isPyWs p1)) with
      | some (_, p5) => if atEol p5 then some ((some g3, none), p5) else none
      | none => none
  | none => none

/-- Third Truist column alternative: credit only after optional
whitespace, then mandatory whitespace, the balance and end of line. -/
def truistB3 (p : List Char) : Option ((Option (List Char) × Option (List Char)) × List Char) :=
  match unsignedAmtAt (p.drop (runLen isPyWs p)) with
  | some (g4, p3) =>
    if runLen isPyWs p3 = 0 then none
    else
      match unsignedAmtAt (p3.drop (runLen isPyWs p3)) with
      | some (_, p5) => if atEol p5 then some ((none, some g4), p5) else none
      | none => none
  | none => none

/-- Fourth Truist column alternative: neither column, mandatory
whitespace, the balance and end of line. -/
def truistB4 (p : List Char) : Option ((Option (List Char) × Option (List Char)) × List Char) :=
  if runLen isPyWs p = 0 then none
  else
    match unsignedAmtAt (p.drop (runLen isPyWs p)) with
    | some (_, p5) => if atEol p5 then some ((none, none), p5) else none
    | none => none

/-- Tail of the Truist column pattern after the description: mandatory
whitespace, an optional debit amount, optional whitespace, an optional
credit amount, mandatory whitespace, the balance amount, end of line. The
four presence combinations are tried in greedy order under each choice of
the leading whitespace length. -/
def truistTailAt (tail : List Char) : Option ((Option (List Char) × Option (List Char)) × List Char) :=
  firstSomeD (fun l2 =>
    (((truistB1 (tail.drop l2)).orElse (fun _ => truistB2 (tail.drop l2))).orElse
      (fun _ => truistB3 (tail.drop l2))).orElse (fun _ => truistB4 (tail.drop l2)))
    (descRange (runLen isPyWs tail) 1)

/-- Match of the first Truist pattern: date, whitespace, lazy description,
then the debit, credit and balance column tail. -/
def truistTx1At (cs : List Char) : Option (TxMatch4 × List Char) :=
  match dateDDslDD cs with
  | none => none
  | some (g1, r1) =>
    let l1max := runLen isPyWs r1
    firstSomeD (fun l1 =>
      let afterWs := r1.drop l1
      let mMax := runLen (fun c => c != '\n') afterWs
      firstSomeD (fun k =>
        let merchant := afterWs.take k
        match truistTailAt (afterWs.drop k) with
        | some ((g3, g4), rest) =>
          some (⟨⟨g1⟩, ⟨merchant⟩, g3.map (fun l => (⟨l⟩ : String)),
                 g4.map (fun l => (⟨l⟩ : String)), ⟨cs.take (cs.length - rest.length)⟩⟩, rest)
        | none => none)
        (ascRange 1 mMax))
      (descRange l1max 1)

/-- Exactly n leading digits. -/
def takeDigitsN (n : Nat) (cs : List Char) : Option (List Char × List Char) :=
  let pre := cs.take n
  if pre.length = n ∧ pre.all Char.isDigit then some (pre, cs.drop n) else none

/-- Date alternatives of the generic pattern: one or two digits, a slash,
one or two digits, an optional slash with two to four digits, in greedy
trial order. -/
def genericDateCands (cs : List Char) : List (List Char × List Char) :=
  ([2, 1].filterMap (fun n => takeDigitsN n cs)).flatMap (fun p1 =>
    match p1.2 with
    | '/' :: r1 =>
      ([2, 1].filterMap (fun n => takeDigitsN n r1)).flatMap (fun p2 =>
        let pre := p1.1 ++ '/' :: p2.1
        (match p2.2 with
         | '/' :: r2 =>
           [4, 3, 2].filterMap (fun n =>
             (takeDigitsN n r2).map (fun pr => (pre ++ '/' :: pr.1, pr.2)))
         | _ => []) ++ [(pre, p2.2)])
    | _ => [])

/-- Match of the generic pattern: flexible date, whitespace, lazy
description, whitespace, signed amount. -/
def genericTxAt (cs : List Char) : Option (TxMatch3 × List Char) :=
  (genericDateCands cs).findSome? (fun dc =>
    let l1max := runLen isPyWs dc.2
    firstSomeD (fun l1 =>
      let afterWs := dc.2.drop l1
      let mMax := runLen (fun c => c != '\n') afterWs
      firstSomeD (fun k =>
        let merchant := afterWs.take k
        let tail := afterWs.drop k
        let l2 := runLen isPyWs tail
        if l2 = 0 then none
        else
          match signedAmtAt (tail.drop l2) with
          | some (g3, rest) =>
            some (⟨⟨dc.1⟩, ⟨merchant⟩, ⟨g3⟩, ⟨cs.take (cs.length - rest.length)⟩⟩, rest)
          | none => none)
        (ascRange 1 mMax))
      (descRange l1max 1))

/-- Scan of all non-overlapping matches left to right, continuing after
the end of each match, as finditer does; the fuel is the text length,
which suffices because every pattern consumes at least one character. -/
def finditerAux {α : Type} (f : List Char → Option (α × List Char)) :
    Nat → List Char → List α
  | 0, _ => []
  | _ + 1, [] => []
  | fuel + 1, c :: rest =>
    match f (c :: rest) with
    | some (m, after) => m :: finditerAux f fuel after
    | none => finditerAux f fuel rest

/-- All matches of a pattern in a text, in order of appearance. -/
def finditer {α : Type} (f : List Char → Option (α × List Char)) (cs : List Char) : List α :=
  finditerAux f cs.length cs

/-- Search loop: the first position at which the pattern matches wins. -/
def searchAux {α : Type} (tryAt : List Char → Option α) : Nat → List Char → Option α
  | 0, _ => none
  | fuel + 1, cs =>
    match tryAt cs with
    | some a => some a
    | none =>
      match cs with
      | [] => none
      | _ :: rest => searchAux tryAt fuel rest

/-- Model of re.search: try the pattern at every position left to right. -/
def searchAll {α : Type} (tryAt : List Char → Option α) (cs : List Char) : Option α :=
  searchAux tryAt (cs.length + 1) cs

/-- Colon-or-whitespace class of the metadata patterns. -/
def isColonWs (c : Char) : Bool := c == ':' || isPyWs c

/-- Comma-or-whitespace class of the period patterns. -/
def commaWs (c : Char) : Bool := c == ',' || isPyWs c

/-- Trailing capture of an account pattern requiring four digits: the
first four of the digit run are the group. -/
def grabDigits4 (cs : List Char) : Option String :=
  if 4 ≤ runLen Char.isDigit cs then some ⟨cs.take 4⟩ else none

/-- Trailing capture of the Amex account pattern: four to five digits,
taken greedily. -/
def grabDigits45 (cs : List Char) : Option String :=
  if 4 ≤ runLen Char.isDigit cs then some ⟨cs.take (min (runLen Char.isDigit cs) 5)⟩ else none

/-- Trailing year capture of a period pattern: at least four digits, the
first four forming the year group, paired with the month-day group. -/
def grabYear4 (g : List Char) (cs : List Char) : Option (List Char × List Char) :=
  if 4 ≤ runLen Char.isDigit cs then some (g, cs.take 4) else none

/-- Optional masking run before the digits of an account pattern: a run of
stars, or a case-insensitive run of the letter x, consumed greedily. -/
def starsXs (cs : List Char) : List Char :=
  match cs with
  | '*' :: _ => cs.drop (runLen (fun c => c == '*') cs)
  | c :: _ => if c.toLower = 'x' then cs.drop (runLen (fun c => c.toLower == 'x') cs) else cs
  | [] => cs

/-- Chase account pattern at one position: the word account, mandatory
whitespace, an optional number word or hash sign, colons or whitespace,
optional masking, then at least four digits of which the first four are
captured. -/
def chaseAccountAt (cs : List Char) : Option String :=
  match ciStartsWith "account".data cs with
  | none => none
  | some r1 =>
    let l1 := runLen isPyWs r1
    if l1 = 0 then none
    else
      let r2 := r1.drop l1
      let r3 := match ciStartsWith "number".data r2 with
        | some r => r
        | none =>
          match r2 with
          | '#' :: r => r
          | _ => r2
      grabDigits4 (starsXs (r3.drop (runLen isColonWs r3)))

/-- Amex account pattern at one position: the word account or card,
optional whitespace, an optional ending or number word, colons or
whitespace, optional masking, then four to five digits captured
greedily. -/
def amexAccountAt (cs : List Char) : Option String :=
  let start := match ciStartsWith "account".data cs with
    | some r => some r
    | none => ciStartsWith "card".data cs
  match start with
  | none => none
  | some r1 =>
    let r2 := r1.drop (runLen isPyWs r1)
    let r3 := match ciStartsWith "ending".data r2 with
      | some r => r
      | none =>
        match ciStartsWith "number".data r2 with
        | some r => r
        | none => r2
    grabDigits45 (starsXs (r3.drop (runLen isColonWs r3)))

/-- Truist account pattern at one position: the word account, optional
whitespace, an optional number word, colons or whitespace, optional
masking, then at least four digits of which the first four are
captured. -/
def truistAccountAt (cs : List Char) : Option String :=
  match ciStartsWith "account".data cs with
  | none => none
  | some r1 =>
    let r2 := r1.drop (runLen isPyWs r1)
    let r3 := match ciStartsWith "number".data r2 with
      | some r => r
      | none => r2
    grabDigits4 (starsXs (r3.drop (runLen isColonWs r3)))

/-- Month-day capture group of the period patterns: a word run, mandatory
whitespace, one or two digits; the group text keeps the original
characters. -/
def monthDayAt (cs : List Char) : Option (List Char × List Char) :=
  let w := runLen isWordC cs
  if w = 0 then none
  else
    let r1 := cs.drop w
    let s := runLen isPyWs r1
    if s = 0 then none
    else
      let r2 := r1.drop s
      let d := runLen Char.isDigit r2
      if d = 0 ∨ 2 < d then none
      else some (cs.take (w + s) ++ r2.take d, r2.drop d)

/-- Separator class of the Chase period pattern: the literal characters of
the source class, which contains a hyphen, three mis-encoded dash bytes
and the letters t and o, matched case-insensitively. -/
def chaseSepClass (c : Char) : Bool :=
  c == '-' || c == 'â' || c == 'Â' || c == '€' || c == '“' ||
    c.toLower == 't' || c.toLower == 'o'

/-- Chase period pattern at one position; on success returns the end
month-day group and the end year digits. -/
def chasePeriodAt (cs : List Char) : Option (List Char × List Char) :=
  let start := match ciStartsWith "statement".data cs with
    | some r => some r
    | none => ciStartsWith "billing".data cs
  match start with
  | none => none
  | some r1 =>
    let l1 := runLen isPyWs r1
    if l1 = 0 then none
    else
      let r2 := r1.drop l1
      let mid := match ciStartsWith "period".data r2 with
        | some r => some r
        | none => ciStartsWith "date".data r2
      match mid with
      | none => none
      | some r3 =>
        let r4 := r3.drop (runLen isColonWs r3)
        match monthDayAt r4 with
        | none => none
        | some (_, r5) =>
          let c1 := runLen commaWs r5
          if c1 = 0 then none
          else
            let r6 := r5.drop c1
            let y1 := runLen Char.isDigit r6
            if y1 ≠ 4 then none
            else
              let r7 := r6.drop 4
              let r8 := r7.drop (runLen isPyWs r7)
              let sepMax := runLen chaseSepClass r8
              firstSomeD (fun sl =>
                let r9 := r8.drop sl
                let r10 := r9.drop (runLen isPyWs r9)
                match monthDayAt r10 with
                | none => none
                | some (g3, r11) =>
                  let c2 := runLen commaWs r11
                  if c2 = 0 then none
                  else grabYear4 g3 (r11.drop c2))
                (descRange sepMax 1)

/-- Amex period pattern at one position; on success returns the closing
month-day group and the year digits. -/
def amexPeriodAt (cs : List Char) : Option (List Char × List Char) :=
  let start := match ciStartsWith "statement".data cs with
    | some r => some r
    | none => ciStartsWith "closing".data cs
  match start with
  | none => none
  | some r1 =>
    let l1 := runLen isPyWs r1
    if l1 = 0 then none
    else
      let r2 := r1.drop l1
      match ciStartsWith "date".data r2 with
      | none => none
      | some r3 =>
        let r4 := r3.drop (runLen isColonWs r3)
        match monthDayAt r4 with
        | none => none
        | some (g1, r5) =>
          let c1 := runLen commaWs r5
          if c1 = 0 then none
          else grabYear4 g1 (r5.drop c1)

/-- Leading alternation of the Truist period pattern: the words statement
and period separated by whitespace, or the word from. -/
def truistPeriodStart (cs : List Char) : Option (List Char) :=
  (match ciStartsWith "statement".data cs with
    | some r1 =>
      if runLen isPyWs r1 = 0 then none
      else ciStartsWith "period".data (r1.drop (runLen isPyWs r1))
    | none => none).orElse (fun _ => ciStartsWith "from".data cs)

/-- Truist period pattern at one position; on success returns the end
month-day group and the end year digits. -/
def truistPeriodAt (cs : List Char) : Option (List Char × List Char) :=
  match truistPeriodStart cs with
  | none => none
  | some r3 =>
    let r4 := r3.drop (runLen isColonWs r3)
    match monthDayAt r4 with
    | none => none
    | some (_, r5) =>
      let c1 := runLen commaWs r5
      if c1 = 0 then none
      else
        let r6 := r5.drop c1
        let y1 := runLen Char.isDigit r6
        if y1 ≠ 4 then none
        else
          let r7 := r6.drop 4
          let r8 := r7.drop (runLen isPyWs r7)
          let sep := match ciStartsWith "through".data r8 with
            | some r => some r
            | none =>
              match ciStartsWith "to".data r8 with
              | some r => some r
              | none =>
                match r8 with
                | '-' :: r => some r
                | _ => none
          match sep with
          | none => none
          | some r9 =>
            let r10 := r9.drop (runLen isPyWs r9)
            match monthDayAt r10 with
            | none => none
            | some (g3, r11) =>
              let c2 := runLen commaWs r11
              if c2 = 0 then none
              else grabYear4 g3 (r11.drop c2)

/-- Year token pattern: the digits two and zero followed by two digits. -/
def findYearAt : List Char → Option Nat
  | '2' :: '0' :: a :: b :: _ =>
    if a.isDigit ∧ b.isDigit then some (2000 + digitVal a * 10 + digitVal b) else none
  | _ => none

/-- First four-digit year token of the text, the year-inference
heuristic. -/
def findYear (cs : List Char) : Option Nat := searchAll findYearAt cs

/-- Chase header and summary denylist. -/
def chaseSkipKws : List String :=
  ["total", "balance", "payment due", "credit limit", "available", "minimum"]

/-- Amex header and summary denylist. -/
def amexSkipKws : List String :=
  ["total", "balance", "payment", "credit limit", "available", "minimum", "fee"]

/-- Truist header and summary denylist. -/
def truistSkipKws : List String :=
  ["balance", "total", "beginning", "ending", "summary", "statement"]

/-- Generic header and summary denylist. -/
def genericSkipKws : List String :=
  ["total", "balance", "summary", "fee", "interest", "minimum"]

/-- Denylist test: some keyword occurs in the lower-cased description. -/
def hasSkipKw (kws : List String) (merchant : String) : Bool :=
  kws.any (fun kw => strContains (pyLower merchant) kw)

/-- Per-match processing of the Chase strategy: denylist filter, date
check, amount normalization and type classification; the amount is made
non-negative for purchases and non-positive otherwise. -/
def chaseProcess (year : Nat) (m : TxMatch3) : Option ExtractedTransaction :=
  let merchant := pyStrip m.g2
  if hasSkipKw chaseSkipKws merchant then none
  else
    match parse_date m.g1 (some year) with
    | none => none
    | some d =>
      let amount := parse_amount m.g3
      let ttype :=
        if amount < 0 ∨ strContains (pyLower merchant) "payment" then "payment"
        else if strContains (pyLower merchant) "refund" ∨ strContains (pyLower merchant) "credit" then
          "refund"
        else "purchase"
      some ⟨d, merchant, if ttype = "purchase" then |amount| else -|amount|, ttype, m.raw⟩

/-- Per-match processing of the Amex strategy: denylist filter, minimum
description length of three, date check, amount normalization and type
classification. -/
def amexProcess (year : Nat) (m : TxMatch3) : Option ExtractedTransaction :=
  let merchant := pyStrip m.g2
  if hasSkipKw amexSkipKws merchant then none
  else if merchant.length < 3 then none
  else
    match parse_date m.g1 (some year) with
    | none => none
    | some d =>
      let amount := parse_amount m.g3
      if amount < 0 then some ⟨d, merchant, amount, "payment", m.raw⟩
      else if strContains (pyLower merchant) "refund" ∨ strContains (pyLower merchant) "credit" then
        some ⟨d, merchant, -|amount|, "refund", m.raw⟩
      else some ⟨d, merchant, |amount|, "purchase", m.raw⟩

/-- Per-match processing of the first Truist pattern: the debit column
makes a withdrawal with the parsed amount, the credit column a deposit
with the negated parsed amount, and a match with neither column is
dropped; then denylist, length and date checks. -/
def truistProcess1 (year : Nat) (m : TxMatch4) : Option ExtractedTransaction :=
  let merchant := pyStrip m.g2
  let col : Option (ℚ × String) :=
    match m.g3 with
    | some debit => some (parse_amount debit, "withdrawal")
    | none =>
      match m.g4 with
      | some credit => some (-(parse_amount credit), "deposit")
      | none => none
  match col with
  | none => none
  | some (amount, ttype) =>
    if hasSkipKw truistSkipKws merchant then none
    else if merchant.length < 3 then none
    else
      match parse_date m.g1 (some year) with
      | none => none
      | some d => some ⟨d, merchant, amount, ttype, m.raw⟩

/-- Per-match processing of the second Truist pattern: positive amounts
are withdrawals, the rest deposits; then denylist, length and date
checks. -/
def truistProcess2 (year : Nat) (m : TxMatch3) : Option ExtractedTransaction :=
  let merchant := pyStrip m.g2
  let amount := parse_amount m.g3
  let ttype := if 0 < amount then "withdrawal" else "deposit"
  if hasSkipKw truistSkipKws merchant then none
  else if merchant.length < 3 then none
  else
    match parse_date m.g1 (some year) with
    | none => none
    | some d => some ⟨d, merchant, amount, ttype, m.raw⟩

/-- Per-match processing of the generic strategy: denylist filter,
minimum description length, date check; positive amounts are purchases,
the rest credits, with the amount kept as parsed. -/
def genericProcess (year : Nat) (m : TxMatch3) : Option ExtractedTransaction :=
  let merchant := pyStrip m.g2
  if hasSkipKw genericSkipKws merchant then none
  else if merchant.length < 3 then none
  else
    match parse_date m.g1 (some year) with
    | none => none
    | some d =>
      let amount := parse_amount m.g3
      some ⟨d, merchant, amount, if 0 < amount then "purchase" else "credit", m.raw⟩

/-- Chase statement-period output: the matched end month and year go
through strptime on the full-month format; on failure the bare year text
is used. -/
def chasePeriodOut (cs : List Char) : Option String :=
  match searchAll chasePeriodAt cs with
  | none => none
  | some (g3, y4) =>
    match strptimeBdY (g3 ++ ' ' :: y4) with
    | some d => some (fmtYm d.year d.month)
    | none => some ⟨y4⟩

/-- Amex statement-period output: strptime failure leaves the period
empty. -/
def amexPeriodOut (cs : List Char) : Option String :=
  match searchAll amexPeriodAt cs with
  | none => none
  | some (g1, y4) =>
    match strptimeBdY (g1 ++ ' ' :: y4) with
    | some d => some (fmtYm d.year d.month)
    | none => none

/-- Truist statement-period output: strptime failure leaves the period
empty. -/
def truistPeriodOut (cs : List Char) : Option String :=
  match searchAll truistPeriodAt cs with
  | none => none
  | some (g3, y4) =>
    match strptimeBdY (g3 ++ ' ' :: y4) with
    | some d => some (fmtYm d.year d.month)
    | none => none

/-- Python slicing with a negative start: the last n characters. -/
def pyTakeLast (s : String) (n : Nat) : String := ⟨s.data.drop (s.data.length - n)⟩

/-- Model of ChaseParser.parse. The document is the extracted text, or an
error message when the source cannot be read; nowYear stands for the
current calendar year used when no year token is found. -/
def chaseParse (doc : Except String String) (nowYear : Nat) : ParseResult :=
  match doc with
  | .error e => ⟨false, "Chase", "credit_card", none, none, [], some e⟩
  | .ok text =>
    let cs := text.data
    let year := (findYear cs).getD nowYear
    ⟨true, "Chase", "credit_card",
      searchAll chaseAccountAt cs,
      chasePeriodOut cs,
      (finditer simpleTxAt cs).filterMap (chaseProcess year),
      none⟩

/-- Transaction loop of AmexParser.parse: the first pattern whose
processed matches are nonempty wins. -/
def amexTransactions (cs : List Char) (year : Nat) : List ExtractedTransaction :=
  let t1 := (finditer amexTx1At cs).filterMap (amexProcess year)
  if t1.isEmpty then (finditer amexTx2At cs).filterMap (amexProcess year) else t1

/-- Model of AmexParser.parse. -/
def amexParse (doc : Except String String) (nowYear : Nat) : ParseResult :=
  match doc with
  | .error e => ⟨false, "American Express", "credit_card", none, none, [], some e⟩
  | .ok text =>
    let cs := text.data
    let year := (findYear cs).getD nowYear
    ⟨true, "American Express", "credit_card",
      (searchAll amexAccountAt cs).map (fun g => pyTakeLast g 4),
      amexPeriodOut cs,
      amexTransactions cs year,
      none⟩

/-- Transaction loop of TruistParser.parse: the column pattern first, then
the simple pattern, first nonempty processed result wins. -/
def truistTransactions (cs : List Char) (year : Nat) : List ExtractedTransaction :=
  let t1 := (finditer truistTx1At cs).filterMap (truistProcess1 year)
  if t1.isEmpty then (finditer simpleTxAt cs).filterMap (truistProcess2 year) else t1

/-- Model of TruistParser.parse. -/
def truistParse (doc : Except String String) (nowYear : Nat) : ParseResult :=
  match doc with
  | .error e => ⟨false, "Truist", "checking", none, none, [], some e⟩
  | .ok text =>
    let cs := text.data
    let year := (findYear cs).getD nowYear
    let atype := if strContains (pyLower text) "savings" then "savings" else "checking"
    ⟨true, "Truist", atype,
      searchAll truistAccountAt cs,
      truistPeriodOut cs,
      truistTransactions cs year,
      none⟩

/-- Institution label guess of the generic strategy. -/
def genericInstitution (lt : String) : String :=
  if strContains lt "chase" then "Chase"
  else if strContains lt "american express" ∨ strContains lt "amex" then "American Express"
  else if strContains lt "truist" then "Truist"
  else if strContains lt "bank of america" then "Bank of America"
  else if strContains lt "wells fargo" then "Wells Fargo"
  else if strContains lt "citi" then "Citi"
  else if strContains lt "capital one" then "Capital One"
  else "Unknown"

/-- Model of GenericParser.parse: no account identifier and no statement
period are extracted, and the account type is unknown. -/
def genericParse (doc : Except String String) (nowYear : Nat) : ParseResult :=
  match doc with
  | .error e => ⟨false, "Unknown", "unknown", none, none, [], some e⟩
  | .ok text =>
    let cs := text.data
    let year := (findYear cs).getD nowYear
    ⟨true, genericInstitution (pyLower text), "unknown", none, none,
      (finditer genericTxAt cs).filterMap (genericProcess year), none⟩

/-- Detection predicate of ChaseParser.can_parse. -/
def chaseDetect (text : String) : Bool :=
  strContains (pyLower text) "chase" &&
    (strContains (pyLower text) "jpmorgan" || strContains (pyLower text) "jpmcb" ||
      strContains (pyLower text) "credit card")

/-- Detection predicate of AmexParser.can_parse. -/
def amexDetect (text : String) : Bool :=
  strContains (pyLower text) "american express" || strContains (pyLower text) "amex"

/-- Detection predicate of TruistParser.can_parse. -/
def truistDetect (text : String) : Bool :=
  strContains (pyLower text) "truist" || strContains (pyLower text) "bb&t" ||
    strContains (pyLower text) "suntrust"

/-- The four strategies of the factory, in registration order. -/
inductive StrategyKind where
  | chase | amex | truist | generic
deriving DecidableEq, Repr

/-- Model of StatementParserFactory.get_parser over the extracted text:
the first strategy whose detection predicate accepts the text wins, and
the generic strategy accepts everything. -/
def getParser (text : String) : StrategyKind :=
  if chaseDetect text then .chase
  else if amexDetect text then .amex
  else if truistDetect text then .truist
  else .generic

/-- Sign convention of the specification: purchases and withdrawals are
non-negative, payments, refunds, deposits and credits non-positive. -/
def signOk (t : ExtractedTransaction) : Prop :=
  ((t.transaction_type = "purchase" ∨ t.transaction_type = "withdrawal") → 0 ≤ t.amount) ∧
    ((t.transaction_type = "payment" ∨ t.transaction_type = "refund" ∨
      t.transaction_type = "deposit" ∨ t.transaction_type = "credit") → t.amount ≤ 0)

/-- Shape test for a year-dash-month string: four digits, a hyphen, two
digits. -/
def isYYYYMM (s : String) : Bool :=
  match s.data with
  | [a, b, c, d, h, e, f] =>
    a.isDigit && b.isDigit && c.isDigit && d.isDigit && h == '-' && e.isDigit && f.isDigit
  | _ => false

/-- Character-shape property of an optional captured amount group. -/
def amtCharsOk (o : Option (List Char)) : Prop :=
  ∀ l, o = some l → ∀ c ∈ l, isDigitComma c = true ∨ c = '.'

/-- Shape property of a Truist column-tail result. -/
def tailOk (r : (Option (List Char) × Option (List Char)) × List Char) : Prop :=
  amtCharsOk r.1.1 ∧ amtCharsOk r.1.2

/-- Sign property of a Truist column match record: both captured columns
normalize to non-negative amounts. -/
def colsNonneg (m : TxMatch4) : Prop :=
  (∀ s, m.g3 = some s → 0 ≤ parse_amount s) ∧ (∀ s, m.g4 = some s → 0 ≤ parse_amount s)

/-- Shape of a period-pattern result: the year group is four digit
characters. -/
def periodOk (p : List Char × List Char) : Prop :=
  p.2.length = 4 ∧ ∀ c ∈ p.2, c.isDigit = true

theorem firstSomeD_sat {α : Type} {f : Nat → Option α} {P : α → Prop}
    (hf : ∀ n r, f n = some r → P r) :
    ∀ l r, firstSomeD f l = some r → P r := by
  intro l
  induction l with
  | nil => intro r h; simp [firstSomeD] at h
  | cons n ns ih =>
    intro r h
    simp only [firstSomeD] at h
    cases hn : f n with
    | some a => rw [hn] at h; exact hf n r (by simpa using hn ▸ h)
    | none => rw [hn] at h; exact ih r h

theorem findSome?_sat {α β : Type} {f : α → Option β} {P : β → Prop}
    (hf : ∀ a r, f a = some r → P r) :
    ∀ l r, List.findSome? f l = some r → P r := by
  intro l
  induction l with
  | nil => intro r h; simp [List.findSome?] at h
  | cons a as ih =>
    intro r h
    rw [List.findSome?_cons] at h
    cases ha : f a with
    | some b => rw [ha] at h; exact hf a r (by simpa using ha ▸ h)
    | none => rw [ha] at h; exact ih r h

theorem orElse_eq_some_cases {α : Type} {a : Option α} {f : Unit → Option α} {r : α}
    (h : a.orElse f = some r) : a = some r ∨ f () = some r := by
  cases a with
  | some x => left; simpa [Option.orElse] using h
  | none => right; simpa [Option.orElse] using h

theorem finditerAux_sat {α : Type} {f : List Char → Option (α × List Char)} {P : α → Prop}
    (hf : ∀ cs m rest, f cs = some (m, rest) → P m) :
    ∀ fuel cs m, m ∈ finditerAux f fuel cs → P m := by
  intro fuel
  induction fuel with
  | zero => intro cs m h; simp [finditerAux] at h
  | succ n ih =>
    intro cs m h
    cases cs with
    | nil => simp [finditerAux] at h
    | cons c rest =>
      simp only [finditerAux] at h
      cases hm : f (c :: rest) with
      | some p =>
        rw [hm] at h
        rcases List.mem_cons.mp h with h1 | h2
        · exact h1 ▸ hf (c :: rest) p.1 p.2 (by simpa using hm)
        · exact ih p.2 m h2
      | none => rw [hm] at h; exact ih rest m h

theorem finditer_sat {α : Type} {f : List Char → Option (α × List Char)} {P : α → Prop}
    (hf : ∀ cs m rest, f cs = some (m, rest) → P m) :
    ∀ cs m, m ∈ finditer f cs → P m := by
  intro cs m h
  exact finditerAux_sat hf cs.length cs m h

theorem searchAux_sat {α : Type} {tryAt : List Char → Option α} {P : α → Prop}
    (hf : ∀ cs r, tryAt cs = some r → P r) :
    ∀ fuel cs r, searchAux tryAt fuel cs = some r → P r := by
  intro fuel
  induction fuel with
  | zero => intro cs r h; simp [searchAux] at h
  | succ n ih =>
    intro cs r h
    simp only [searchAux] at h
    cases hm : tryAt cs with
    | some a => rw [hm] at h; exact hf cs r (by simpa using hm ▸ h)
    | none =>
      rw [hm] at h
      cases cs with
      | nil => simp at h
      | cons c rest => exact ih rest r h

theorem searchAll_sat {α : Type} {tryAt : List Char → Option α} {P : α → Prop}
    (hf : ∀ cs r, tryAt cs = some r → P r) :
    ∀ cs r, searchAll tryAt cs = some r → P r := by
  intro cs r h
  exact searchAux_sat hf (cs.length + 1) cs r h

theorem digitsToNat_cast_nonneg (cs : List Char) : (0 : ℚ) ≤ (digitsToNat cs : ℚ) := by
  exact_mod_cast Nat.zero_le _

theorem applyExp_nonneg {q : ℚ} (hq : 0 ≤ q) (e : Int) : 0 ≤ applyExp q e := by
  unfold applyExp
  split
  · positivity
  · positivity

theorem pyFloatCore_nonneg {cs : List Char} {q : ℚ} (h : pyFloatCore cs = some q) : 0 ≤ q := by
  unfold pyFloatCore at h
  split at h
  · split at h
    · exact absurd h (by simp)
    · obtain ⟨e, -, he⟩ := Option.map_eq_some'.mp h
      rw [← he]
      exact applyExp_nonneg (by positivity) e
  · split at h
    · exact absurd h (by simp)
    · obtain ⟨e, -, he⟩ := Option.map_eq_some'.mp h
      rw [← he]
      exact applyExp_nonneg (digitsToNat_cast_nonneg _) e

theorem runLen_le (p : Char → Bool) (cs : List Char) : runLen p cs ≤ cs.length := by
  unfold runLen
  induction cs with
  | nil => simp
  | cons c rest ih =>
    by_cases hc : p c
    · simpa [List.takeWhile_cons, hc] using Nat.succ_le_succ ih
    · simp [List.takeWhile_cons, hc]

theorem take_sat_of_runLen {p : Char → Bool} {cs : List Char} {n : Nat}
    (h : n ≤ runLen p cs) : ∀ c ∈ cs.take n, p c := by
  induction cs generalizing n with
  | nil => simp
  | cons x rest ih =>
    cases n with
    | zero => simp
    | succ m =>
      unfold runLen at h
      by_cases hx : p x
      · rw [List.takeWhile_cons, if_pos hx] at h
        simp only [List.length_cons, Nat.succ_le_succ_iff] at h
        intro c hc
        rcases List.mem_cons.mp (by simpa using hc) with rfl | hmem
        · exact hx
        · exact ih h c hmem
      · rw [List.takeWhile_cons, if_neg hx] at h
        simp at h

theorem unsignedAmt_chars {cs s rest : List Char} (h : unsignedAmtAt cs = some (s, rest)) :
    ∀ c ∈ s, isDigitComma c = true ∨ c = '.' := by
  simp only [unsignedAmtAt] at h
  split at h
  · exact absurd h (by simp)
  · split at h
    · split at h
      · rw [Option.some.injEq, Prod.mk.injEq] at h
        obtain ⟨rfl, -⟩ := h
        intro c hc
        rcases List.mem_append.mp hc with h1 | h2
        · exact Or.inl (List.mem_takeWhile_imp h1)
        · rcases List.mem_cons.mp h2 with rfl | h3
          · exact Or.inr rfl
          · rcases List.mem_cons.mp h3 with rfl | h4
            · rename_i hdig; exact Or.inl (by simp [isDigitComma, hdig.1])
            · rcases List.mem_cons.mp h4 with rfl | h5
              · rename_i hdig; exact Or.inl (by simp [isDigitComma, hdig.2])
              · exact absurd h5 (List.not_mem_nil _)
      · exact absurd h (by simp)
    · exact absurd h (by simp)

theorem pyFloatOpt_plain {c : Char} {r : List Char} (h1 : c ≠ '+') (h2 : c ≠ '-') :
    pyFloatOpt (c :: r) = pyFloatCore (c :: r) := by
  unfold pyFloatOpt
  split
  · rename_i heq; rw [List.cons.injEq] at heq; exact absurd heq.1 h1
  · rename_i heq; rw [List.cons.injEq] at heq; exact absurd heq.1 h2
  · rfl

theorem parse_amount_nonneg_of_chars {l : List Char}
    (hl : ∀ c ∈ l, isDigitComma c = true ∨ c = '.') : 0 ≤ parse_amount ⟨l⟩ := by
  have hdata : (⟨l⟩ : String).data = l := rfl
  unfold parse_amount amountResidual
  rw [hdata]
  set l1 := cleanAmount l with hl1def
  have hl1 : ∀ c ∈ l1, isDigitComma c = true ∨ c = '.' := by
    intro c hc
    exact hl c (List.mem_of_mem_filter hc)
  have hparen : parenStep l1 = l1 := by
    unfold parenStep
    rw [if_neg]
    intro hcond
    rw [Bool.and_eq_true] at hcond
    have hhead := hcond.1
    cases hl1c : l1 with
    | nil => rw [hl1c] at hhead; simp at hhead
    | cons c rest =>
      rw [hl1c] at hhead
      simp only [List.head?_cons, beq_iff_eq, Option.some.injEq] at hhead
      have := hl1 c (hl1c ▸ List.mem_cons_self c rest)
      rw [hhead] at this
      rcases this with h | h
      · exact absurd h (by decide)
      · exact absurd h (by decide)
  have hcr : crStep l1 = l1 := by
    unfold crStep
    rw [if_neg]
    intro hcond
    rw [beq_iff_eq] at hcond
    have hr : 'R' ∈ l1 := by
      have : 'R' ∈ l1.reverse.take 2 := by rw [hcond]; simp
      exact List.mem_reverse.mp (List.mem_of_mem_take this)
    rcases hl1 'R' hr with h | h
    · exact absurd h (by decide)
    · exact absurd h (by decide)
  rw [hparen, hcr]
  have hcore : ∀ q : ℚ, pyFloatOpt l1 = some q → 0 ≤ q := by
    intro q hq
    cases hl1c : l1 with
    | nil =>
      rw [hl1c] at hq
      have : pyFloatOpt [] = pyFloatCore [] := rfl
      rw [this] at hq
      exact pyFloatCore_nonneg hq
    | cons c rest =>
      have hplus : c ≠ '+' := by
        intro hc
        rcases hl1 c (hl1c ▸ List.mem_cons_self c rest) with h | h
        · rw [hc] at h; exact absurd h (by decide)
        · rw [hc] at h; exact absurd h (by decide)
      have hminus : c ≠ '-' := by
        intro hc
        rcases hl1 c (hl1c ▸ List.mem_cons_self c rest) with h | h
        · rw [hc] at h; exact absurd h (by decide)
        · rw [hc] at h; exact absurd h (by decide)
      rw [hl1c, pyFloatOpt_plain hplus hminus] at hq
      exact pyFloatCore_nonneg hq
  cases hq : pyFloatOpt l1 with
  | none => simp
  | some q => simpa using hcore q hq



theorem truistB1_sat {p : List Char} {r : (Option (List Char) × Option (List Char)) × List Char}
    (h : truistB1 p = some r) : tailOk r := by
  unfold truistB1 at h
  cases hu1 : unsignedAmtAt p with
  | none => rw [hu1] at h; exact absurd h (by simp)
  | some pr1 =>
    obtain ⟨g3, p1⟩ := pr1
    rw [hu1] at h
    dsimp only at h
    cases hu2 : unsignedAmtAt (p1.drop (runLen isPyWs p1)) with
    | none => rw [hu2] at h; exact absurd h (by simp)
    | some pr2 =>
      obtain ⟨g4, p3⟩ := pr2
      rw [hu2] at h
      dsimp only at h
      split at h
      · exact absurd h (by simp)
      · cases hu3 : unsignedAmtAt (p3.drop (runLen isPyWs p3)) with
        | none => rw [hu3] at h; exact absurd h (by simp)
        | some pr3 =>
          rw [hu3] at h
          dsimp only at h
          split at h
          · rw [Option.some.injEq] at h
            subst h
            constructor
            · intro l hl
              rw [Option.some.injEq] at hl
              subst hl
              exact unsignedAmt_chars hu1
            · intro l hl
              rw [Option.some.injEq] at hl
              subst hl
              exact unsignedAmt_chars hu2
          · exact absurd h (by simp)

theorem truistB2_sat {p : List Char} {r : (Option (List Char) × Option (List Char)) × List Char}
    (h : truistB2 p = some r) : tailOk r := by
  unfold truistB2 at h
  cases hu1 : unsignedAmtAt p with
  | none => rw [hu1] at h; exact absurd h (by simp)
  | some pr1 =>
    obtain ⟨g3, p1⟩ := pr1
    rw [hu1] at h
    dsimp only at h
    split at h
    · exact absurd h (by simp)
    · cases hu2 : unsignedAmtAt (p1.drop (runLen isPyWs p1)) with
      | none => rw [hu2] at h; exact absurd h (by simp)
      | some pr2 =>
        rw [hu2] at h
        dsimp only at h
        split at h
        · rw [Option.some.injEq] at h
          subst h
          constructor
          · intro l hl
            rw [Option.some.injEq] at hl
            subst hl
            exact unsignedAmt_chars hu1
          · intro l hl
            simp at hl
        · exact absurd h (by simp)

theorem truistB3_sat {p : List Char} {r : (Option (List Char) × Option (List Char)) × List Char}
    (h : truistB3 p = some r) : tailOk r := by
  unfold truistB3 at h
  cases hu1 : unsignedAmtAt (p.drop (runLen isPyWs p)) with
  | none => rw [hu1] at h; exact absurd h (by simp)
  | some pr1 =>
    obtain ⟨g4, p3⟩ := pr1
    rw [hu1] at h
    dsimp only at h
    split at h
    · exact absurd h (by simp)
    · cases hu2 : unsignedAmtAt (p3.drop (runLen isPyWs p3)) with
      | none => rw [hu2] at h; exact absurd h (by simp)
      | some pr2 =>
        rw [hu2] at h
        dsimp only at h
        split at h
        · rw [Option.some.injEq] at h
          subst h
          constructor
          · intro l hl
            simp at hl
          · intro l hl
            rw [Option.some.injEq] at hl
            subst hl
            exact unsignedAmt_chars hu1
        · exact absurd h (by simp)

theorem truistB4_sat {p : List Char} {r : (Option (List Char) × Option (List Char)) × List Char}
    (h : truistB4 p = some r) : tailOk r := by
  unfold truistB4 at h
  split at h
  · exact absurd h (by simp)
  · cases hu1 : unsignedAmtAt (p.drop (runLen isPyWs p)) with
    | none => rw [hu1] at h; exact absurd h (by simp)
    | some pr1 =>
      rw [hu1] at h
      dsimp only at h
      split at h
      · rw [Option.some.injEq] at h
        subst h
        exact ⟨fun l hl => by simp at hl, fun l hl => by simp at hl⟩
      · exact absurd h (by simp)

theorem truistTailAt_sat {tail : List Char}
    {r : (Option (List Char) × Option (List Char)) × List Char}
    (h : truistTailAt tail = some r) : tailOk r := by
  unfold truistTailAt at h
  refine firstSomeD_sat (P := tailOk) ?_ _ r h
  intro n r2 hn
  rcases orElse_eq_some_cases hn with h123 | h4
  · rcases orElse_eq_some_cases h123 with h12 | h3
    · rcases orElse_eq_some_cases h12 with h1 | h2
      · exact truistB1_sat h1
      · exact truistB2_sat h2
    · exact truistB3_sat h3
  · exact truistB4_sat h4


theorem truistTx1At_sat {cs : List Char} {m : TxMatch4} {rest : List Char}
    (h : truistTx1At cs = some (m, rest)) : colsNonneg m := by
  unfold truistTx1At at h
  split at h
  · exact absurd h (by simp)
  · refine (firstSomeD_sat (P := fun pr : TxMatch4 × List Char => colsNonneg pr.1)
      ?_ _ (m, rest) h : colsNonneg (m, rest).1)
    intro l1 r1 h1
    refine firstSomeD_sat (P := fun pr : TxMatch4 × List Char => colsNonneg pr.1) ?_ _ r1 h1
    intro k r2 h2
    revert h2
    dsimp only
    intro h2
    cases htail : truistTailAt ((List.drop l1 _).drop k) with
    | none => rw [htail] at h2; exact absurd h2 (by simp)
    | some tr =>
      obtain ⟨⟨g3o, g4o⟩, prest⟩ := tr
      rw [htail] at h2
      dsimp only at h2
      rw [Option.some.injEq] at h2
      obtain ⟨hg3, hg4⟩ := truistTailAt_sat htail
      subst h2
      constructor
      · intro s hs
        rcases Option.map_eq_some'.mp hs with ⟨l, hl, rfl⟩
        exact parse_amount_nonneg_of_chars (hg3 l hl)
      · intro s hs
        rcases Option.map_eq_some'.mp hs with ⟨l, hl, rfl⟩
        exact parse_amount_nonneg_of_chars (hg4 l hl)

theorem strmk_length (l : List Char) : (⟨l⟩ : String).length = l.length := rfl

theorem mkDate_some {y m d : Nat} {p : PyDate} (h : mkDate y m d = some p) :
    p = ⟨y, m, d⟩ ∧ 1 ≤ y ∧ y ≤ 9999 ∧ 1 ≤ m ∧ m ≤ 12 := by
  unfold mkDate at h
  split at h
  · rw [Option.some.injEq] at h
    rename_i hc
    exact ⟨h.symm, hc.1, hc.2.1, hc.2.2.1, hc.2.2.2.1⟩
  · exact absurd h (by simp)

theorem strptimeBdY_bounds {cs : List Char} {d : PyDate} (h : strptimeBdY cs = some d) :
    1 ≤ d.year ∧ d.year ≤ 9999 ∧ 1 ≤ d.month ∧ d.month ≤ 12 := by
  unfold strptimeBdY at h
  split at h
  · obtain ⟨rfl, h1, h2, h3, h4⟩ := mkDate_some h
    exact ⟨h1, h2, h3, h4⟩
  · exact absurd h (by simp)

theorem natDecAux_length_one {fuel n : Nat} (hn : n < 10) (hf : 1 ≤ fuel) :
    (natDecAux fuel n).length = 1 := by
  cases fuel with
  | zero => omega
  | succ f => simp [natDecAux, hn]

theorem natDecAux_length_step {fuel n : Nat} (hn : 10 ≤ n) :
    (natDecAux (fuel + 1) n).length = (natDecAux fuel (n / 10)).length + 1 := by
  simp [natDecAux, Nat.not_lt.mpr hn]

theorem natDec_length_four {n : Nat} (h1 : 1000 ≤ n) (h2 : n ≤ 9999) :
    (natDec n).length = 4 := by
  unfold natDec
  have e1 : n + 1 = (n - 1) + 1 + 1 := by omega
  rw [e1, natDecAux_length_step (by omega)]
  have e2 : n - 1 + 1 = (n - 2) + 1 + 1 := by omega
  rw [e2, natDecAux_length_step (by omega)]
  have e3 : n - 2 + 1 = (n - 3) + 1 + 1 := by omega
  rw [e3, natDecAux_length_step (by omega)]
  rw [natDecAux_length_one (by omega) (by omega)]

theorem char_ofNat_digit {k : Nat} (h : k < 10) : (Char.ofNat (48 + k)).isDigit = true := by
  interval_cases k <;> decide

theorem natDecAux_all_digit : ∀ fuel n, ∀ c ∈ natDecAux fuel n, c.isDigit = true := by
  intro fuel
  induction fuel with
  | zero => intro n c hc; simp [natDecAux] at hc
  | succ f ih =>
    intro n c hc
    by_cases hn : n < 10
    · simp [natDecAux, hn] at hc
      subst hc
      exact char_ofNat_digit hn
    · simp only [natDecAux, if_neg hn] at hc
      rcases List.mem_append.mp hc with h1 | h2
      · exact ih (n / 10) c h1
      · have : c = Char.ofNat (48 + n % 10) := by simpa using h2
        subst this
        exact char_ofNat_digit (Nat.mod_lt _ (by omega))

theorem natDec_all_digit (n : Nat) : ∀ c ∈ natDec n, c.isDigit = true :=
  natDecAux_all_digit (n + 1) n

theorem pad2_shape {m : Nat} (h1 : 1 ≤ m) (h2 : m ≤ 12) :
    (pad2 m).length = 2 ∧ ∀ c ∈ pad2 m, c.isDigit = true := by
  interval_cases m <;> exact ⟨by decide, by decide⟩

theorem list_len_four {l : List Char} (h : l.length = 4) :
    ∃ a b c d, l = [a, b, c, d] := by
  match l with
  | [a, b, c, d] => exact ⟨a, b, c, d, rfl⟩
  | [] | [_] | [_, _] | [_, _, _] => simp at h
  | _ :: _ :: _ :: _ :: _ :: _ => simp at h

theorem list_len_two {l : List Char} (h : l.length = 2) :
    ∃ a b, l = [a, b] := by
  match l with
  | [a, b] => exact ⟨a, b, rfl⟩
  | [] | [_] => simp at h
  | _ :: _ :: _ :: _ => simp at h

theorem fmtYm_shape {y m : Nat} (hy1 : 1000 ≤ y) (hy2 : y ≤ 9999) (hm1 : 1 ≤ m)
    (hm2 : m ≤ 12) : isYYYYMM (fmtYm y m) = true := by
  obtain ⟨a, b, c, d, habcd⟩ := list_len_four (natDec_length_four hy1 hy2)
  obtain ⟨hplen, hpdig⟩ := pad2_shape hm1 hm2
  obtain ⟨e, f, hef⟩ := list_len_two hplen
  have hdig := natDec_all_digit y
  rw [habcd] at hdig
  rw [hef] at hpdig
  have : (fmtYm y m).data = [a, b, c, d, '-', e, f] := by
    show natDec y ++ '-' :: pad2 m = _
    rw [habcd, hef]
    rfl
  unfold isYYYYMM
  rw [this]
  simp [hdig a (by simp), hdig b (by simp), hdig c (by simp), hdig d (by simp),
    hpdig e (by simp), hpdig f (by simp)]

theorem grabDigits4_len {cs : List Char} {s : String} (h : grabDigits4 cs = some s) :
    s.length = 4 := by
  unfold grabDigits4 at h
  split at h
  · rw [Option.some.injEq] at h
    subst h
    rename_i hge
    rw [strmk_length, List.length_take, Nat.min_eq_left (le_trans hge (runLen_le _ _))]
  · exact absurd h (by simp)

theorem grabDigits45_len {cs : List Char} {s : String} (h : grabDigits45 cs = some s) :
    4 ≤ s.length := by
  unfold grabDigits45 at h
  split at h
  · rw [Option.some.injEq] at h
    subst h
    rename_i hge
    rw [strmk_length, List.length_take]
    exact le_min (le_min hge (by omega)) (le_trans hge (runLen_le _ _))
  · exact absurd h (by simp)

theorem grabYear4_shape {g cs : List Char} {p : List Char × List Char}
    (h : grabYear4 g cs = some p) :
    p.2.length = 4 ∧ ∀ c ∈ p.2, c.isDigit = true := by
  unfold grabYear4 at h
  split at h
  · rw [Option.some.injEq] at h
    subst h
    rename_i hge
    constructor
    · rw [List.length_take, Nat.min_eq_left (le_trans hge (runLen_le _ _))]
    · exact take_sat_of_runLen hge
  · exact absurd h (by simp)

theorem chaseAccountAt_len {cs : List Char} {s : String} (h : chaseAccountAt cs = some s) :
    s.length = 4 := by
  unfold chaseAccountAt at h
  cases hc : ciStartsWith "account".data cs with
  | none => rw [hc] at h; exact absurd h (by simp)
  | some r1 =>
    rw [hc] at h
    dsimp only at h
    split at h
    · exact absurd h (by simp)
    · exact grabDigits4_len h

theorem amexAccountAt_len {cs : List Char} {s : String} (h : amexAccountAt cs = some s) :
    4 ≤ s.length := by
  unfold amexAccountAt at h
  cases hc : (match ciStartsWith "account".data cs with
      | some r => some r
      | none => ciStartsWith "card".data cs) with
  | none => rw [hc] at h; exact absurd h (by simp)
  | some r1 =>
    rw [hc] at h
    dsimp only at h
    exact grabDigits45_len h

theorem truistAccountAt_len {cs : List Char} {s : String} (h : truistAccountAt cs = some s) :
    s.length = 4 := by
  unfold truistAccountAt at h
  cases hc : ciStartsWith "account".data cs with
  | none => rw [hc] at h; exact absurd h (by simp)
  | some r1 =>
    rw [hc] at h
    dsimp only at h
    exact grabDigits4_len h

theorem pyTakeLast_length {s : String} (h4 : 4 ≤ s.length) : (pyTakeLast s 4).length = 4 := by
  unfold pyTakeLast
  rw [strmk_length, List.length_drop]
  have hd : s.data.length = s.length := rfl
  omega


theorem chasePeriodAt_sat {cs : List Char} {p : List Char × List Char}
    (h : chasePeriodAt cs = some p) : periodOk p := by
  unfold chasePeriodAt at h
  cases h0 : (match ciStartsWith "statement".data cs with
      | some r => some r
      | none => ciStartsWith "billing".data cs) with
  | none => rw [h0] at h; exact absurd h (by simp)
  | some r1 =>
    rw [h0] at h
    dsimp only at h
    split at h
    · exact absurd h (by simp)
    · cases h1 : (match ciStartsWith "period".data (r1.drop (runLen isPyWs r1)) with
          | some r => some r
          | none => ciStartsWith "date".data (r1.drop (runLen isPyWs r1))) with
      | none => rw [h1] at h; exact absurd h (by simp)
      | some r3 =>
        rw [h1] at h
        dsimp only at h
        cases h2 : monthDayAt (r3.drop (runLen isColonWs r3)) with
        | none => rw [h2] at h; exact absurd h (by simp)
        | some pr =>
          obtain ⟨g1, r5⟩ := pr
          rw [h2] at h
          dsimp only at h
          split at h
          · exact absurd h (by simp)
          · split at h
            · exact absurd h (by simp)
            · refine firstSomeD_sat (P := periodOk) ?_ _ p h
              intro sl pp hp
              try dsimp only at hp
              split at hp
              · exact absurd hp (by simp)
              · try dsimp only at hp
                split at hp
                · exact absurd hp (by simp)
                · exact grabYear4_shape hp

theorem amexPeriodAt_sat {cs : List Char} {p : List Char × List Char}
    (h : amexPeriodAt cs = some p) : periodOk p := by
  unfold amexPeriodAt at h
  cases h0 : (match ciStartsWith "statement".data cs with
      | some r => some r
      | none => ciStartsWith "closing".data cs) with
  | none => rw [h0] at h; exact absurd h (by simp)
  | some r1 =>
    rw [h0] at h
    dsimp only at h
    split at h
    · exact absurd h (by simp)
    · split at h
      · exact absurd h (by simp)
      · try dsimp only at h
        split at h
        · exact absurd h (by simp)
        · try dsimp only at h
          split at h
          · exact absurd h (by simp)
          · exact grabYear4_shape h

theorem truistPeriodAt_sat {cs : List Char} {p : List Char × List Char}
    (h : truistPeriodAt cs = some p) : periodOk p := by
  unfold truistPeriodAt at h
  cases h0 : truistPeriodStart cs with
  | none => rw [h0] at h; exact absurd h (by simp)
  | some r3 =>
    rw [h0] at h
    dsimp only at h
    split at h
    · exact absurd h (by simp)
    · try dsimp only at h
      split at h
      · exact absurd h (by simp)
      · try dsimp only at h
        split at h
        · exact absurd h (by simp)
        · try dsimp only at h
          split at h
          · exact absurd h (by simp)
          · try dsimp only at h
            split at h
            · exact absurd h (by simp)
            · try dsimp only at h
              split at h
              · exact absurd h (by simp)
              · exact grabYear4_shape h

theorem chaseProcess_signOk {year : Nat} {m : TxMatch3} {t : ExtractedTransaction}
    (h : chaseProcess year m = some t) : signOk t := by
  unfold chaseProcess at h
  try dsimp only at h
  split at h
  · exact absurd h (by simp)
  · split at h
    · exact absurd h (by simp)
    · rw [Option.some.injEq] at h
      subst h
      by_cases h1 : parse_amount m.g3 < 0 ∨ strContains (pyLower (pyStrip m.g2)) "payment" = true
      · rw [if_pos h1]
        refine ⟨fun ht => by simp [signOk] at ht, fun _ => ?_⟩
        dsimp only
        rw [if_neg (by decide)]
        exact neg_nonpos.mpr (abs_nonneg _)
      · rw [if_neg h1]
        by_cases h2 : strContains (pyLower (pyStrip m.g2)) "refund" = true ∨
            strContains (pyLower (pyStrip m.g2)) "credit" = true
        · rw [if_pos h2]
          refine ⟨fun ht => by simp at ht, fun _ => ?_⟩
          dsimp only
          rw [if_neg (by decide)]
          exact neg_nonpos.mpr (abs_nonneg _)
        · rw [if_neg h2]
          refine ⟨fun _ => ?_, fun ht => by simp at ht⟩
          dsimp only
          rw [if_pos rfl]
          exact abs_nonneg _

theorem amexProcess_signOk {year : Nat} {m : TxMatch3} {t : ExtractedTransaction}
    (h : amexProcess year m = some t) : signOk t := by
  unfold amexProcess at h
  try dsimp only at h
  split at h
  · exact absurd h (by simp)
  · split at h
    · exact absurd h (by simp)
    · split at h
      · exact absurd h (by simp)
      · split at h
        · rw [Option.some.injEq] at h
          subst h
          rename_i hneg
          exact ⟨fun ht => by simp at ht, fun _ => le_of_lt hneg⟩
        · split at h
          · rw [Option.some.injEq] at h
            subst h
            exact ⟨fun ht => by simp at ht, fun _ => neg_nonpos.mpr (abs_nonneg _)⟩
          · rw [Option.some.injEq] at h
            subst h
            exact ⟨fun _ => abs_nonneg _, fun ht => by simp at ht⟩

theorem truistProcess1_signOk {year : Nat} {m : TxMatch4} {t : ExtractedTransaction}
    (hc : colsNonneg m) (h : truistProcess1 year m = some t) : signOk t := by
  unfold truistProcess1 at h
  try dsimp only at h
  split at h
  · exact absurd h (by simp)
  · rename_i pr hcol
    split at h
    · exact absurd h (by simp)
    · split at h
      · exact absurd h (by simp)
      · split at h
        · exact absurd h (by simp)
        · rw [Option.some.injEq] at h
          subst h
          revert hcol
          split
          · rename_i s hg3
            intro hcol
            rw [Option.some.injEq, Prod.mk.injEq] at hcol
            obtain ⟨ha, hty⟩ := hcol
            subst ha
            subst hty
            exact ⟨fun _ => hc.1 s hg3, fun ht => by simp at ht⟩
          · split
            · rename_i s hg4
              intro hcol
              rw [Option.some.injEq, Prod.mk.injEq] at hcol
              obtain ⟨ha, hty⟩ := hcol
              subst ha
              subst hty
              exact ⟨fun ht => by simp at ht, fun _ => neg_nonpos.mpr (hc.2 s hg4)⟩
            · intro hcol
              exact absurd hcol (by simp)

theorem truistProcess2_signOk {year : Nat} {m : TxMatch3} {t : ExtractedTransaction}
    (h : truistProcess2 year m = some t) : signOk t := by
  unfold truistProcess2 at h
  try dsimp only at h
  split at h
  · exact absurd h (by simp)
  · split at h
    · exact absurd h (by simp)
    · split at h
      · exact absurd h (by simp)
      · rw [Option.some.injEq] at h
        subst h
        by_cases hp : 0 < parse_amount m.g3
        · rw [if_pos hp]
          exact ⟨fun _ => le_of_lt hp, fun ht => by simp at ht⟩
        · rw [if_neg hp]
          exact ⟨fun ht => by simp at ht, fun _ => le_of_not_lt hp⟩

theorem genericProcess_signOk {year : Nat} {m : TxMatch3} {t : ExtractedTransaction}
    (h : genericProcess year m = some t) : signOk t := by
  unfold genericProcess at h
  try dsimp only at h
  split at h
  · exact absurd h (by simp)
  · split at h
    · exact absurd h (by simp)
    · split at h
      · exact absurd h (by simp)
      · rw [Option.some.injEq] at h
        subst h
        by_cases hp : 0 < parse_amount m.g3
        · rw [if_pos hp]
          exact ⟨fun _ => le_of_lt hp, fun ht => by simp at ht⟩
        · rw [if_neg hp]
          exact ⟨fun ht => by simp at ht, fun _ => le_of_not_lt hp⟩

theorem amexProcess_merchant_len {year : Nat} {m : TxMatch3} {t : ExtractedTransaction}
    (h : amexProcess year m = some t) : 3 ≤ t.merchant.length := by
  unfold amexProcess at h
  try dsimp only at h
  split at h
  · exact absurd h (by simp)
  · split at h
    · exact absurd h (by simp)
    · rename_i hlen
      split at h
      · exact absurd h (by simp)
      · have hge : 3 ≤ (pyStrip m.g2).length := by omega
        split at h
        · rw [Option.some.injEq] at h
          subst h
          exact hge
        · split at h
          · rw [Option.some.injEq] at h
            subst h
            exact hge
          · rw [Option.some.injEq] at h
            subst h
            exact hge

theorem truistProcess1_merchant_len {year : Nat} {m : TxMatch4} {t : ExtractedTransaction}
    (h : truistProcess1 year m = some t) : 3 ≤ t.merchant.length := by
  unfold truistProcess1 at h
  try dsimp only at h
  split at h
  · exact absurd h (by simp)
  · split at h
    · exact absurd h (by simp)
    · split at h
      · exact absurd h (by simp)
      · rename_i hlen
        split at h
        · exact absurd h (by simp)
        · rw [Option.some.injEq] at h
          subst h
          show 3 ≤ (pyStrip m.g2).length
          omega

theorem truistProcess2_merchant_len {year : Nat} {m : TxMatch3} {t : ExtractedTransaction}
    (h : truistProcess2 year m = some t) : 3 ≤ t.merchant.length := by
  unfold truistProcess2 at h
  try dsimp only at h
  split at h
  · exact absurd h (by simp)
  · split at h
    · exact absurd h (by simp)
    · rename_i hlen
      split at h
      · exact absurd h (by simp)
      · rw [Option.some.injEq] at h
        subst h
        show 3 ≤ (pyStrip m.g2).length
        omega

theorem genericProcess_merchant_len {year : Nat} {m : TxMatch3} {t : ExtractedTransaction}
    (h : genericProcess year m = some t) : 3 ≤ t.merchant.length := by
  unfold genericProcess at h
  try dsimp only at h
  split at h
  · exact absurd h (by simp)
  · split at h
    · exact absurd h (by simp)
    · rename_i hlen
      split at h
      · exact absurd h (by simp)
      · rw [Option.some.injEq] at h
        subst h
        show 3 ≤ (pyStrip m.g2).length
        omega

attribute [local semireducible] Rat.mul Rat.inv Rat.add Rat.sub Rat.ofScientific

/-- C1: for every ExtractedTransaction emitted by any strategy, the amount
sign is consistent with the transaction type: purchase and withdrawal
amounts are non-negative, payment, refund, deposit and credit amounts
non-positive. -/
theorem spec_c1_amount_sign_convention :
    ∀ (doc : Except String String) (nowYear : Nat) (t : ExtractedTransaction),
      (t ∈ (chaseParse doc nowYear).transactions → signOk t) ∧
      (t ∈ (amexParse doc nowYear).transactions → signOk t) ∧
      (t ∈ (truistParse doc nowYear).transactions → signOk t) ∧
      (t ∈ (genericParse doc nowYear).transactions → signOk t) := by
  intro doc nowYear t
  refine ⟨?_, ?_, ?_, ?_⟩ <;> intro ht
  · cases doc with
    | error e => simp [chaseParse] at ht
    | ok text =>
      obtain ⟨m, -, hm⟩ := List.mem_filterMap.mp (by simpa [chaseParse] using ht)
      exact chaseProcess_signOk hm
  · cases doc with
    | error e => simp [amexParse] at ht
    | ok text =>
      have ht2 : t ∈ amexTransactions text.data ((findYear text.data).getD nowYear) := by
        simpa [amexParse] using ht
      unfold amexTransactions at ht2
      try dsimp only at ht2
      split at ht2
      · obtain ⟨m, -, hm⟩ := List.mem_filterMap.mp ht2
        exact amexProcess_signOk hm
      · obtain ⟨m, -, hm⟩ := List.mem_filterMap.mp ht2
        exact amexProcess_signOk hm
  · cases doc with
    | error e => simp [truistParse] at ht
    | ok text =>
      have ht2 : t ∈ truistTransactions text.data ((findYear text.data).getD nowYear) := by
        simpa [truistParse] using ht
      unfold truistTransactions at ht2
      try dsimp only at ht2
      split at ht2
      · obtain ⟨m, -, hm⟩ := List.mem_filterMap.mp ht2
        exact truistProcess2_signOk hm
      · obtain ⟨m, hmem, hm⟩ := List.mem_filterMap.mp ht2
        have hcols : colsNonneg m :=
          finditer_sat (fun cs0 m0 rest0 h0 => truistTx1At_sat h0) _ m hmem
        exact truistProcess1_signOk hcols hm
  · cases doc with
    | error e => simp [genericParse] at ht
    | ok text =>
      obtain ⟨m, -, hm⟩ := List.mem_filterMap.mp (by simpa [genericParse] using ht)
      exact genericProcess_signOk hm

theorem spec_c1_witness :
    signOk ⟨⟨2024, 1, 2⟩, "AB", 5, "purchase", "01/02 AB 5.00"⟩ ∧
    signOk ⟨⟨2024, 1, 2⟩, "BOOKSTORE", 5, "purchase", "01/02 BOOKSTORE 5.00"⟩ ∧
    signOk ⟨⟨2024, 1, 2⟩, "GROCERY STORE", 50, "withdrawal",
      "01/02 GROCERY STORE 50.00 1,000.00"⟩ ∧
    signOk ⟨⟨2024, 1, 2⟩, "MARKET", 5, "purchase", "1/2 MARKET 5.00"⟩ :=
  ⟨(spec_c1_amount_sign_convention (.ok "01/02 AB 5.00\n") 2024 _).1 (by decide),
   (spec_c1_amount_sign_convention (.ok "01/02 BOOKSTORE 5.00\n") 2024 _).2.1 (by decide),
   (spec_c1_amount_sign_convention (.ok "01/02 GROCERY STORE 50.00 1,000.00\n") 2024 _).2.2.1
     (by decide),
   (spec_c1_amount_sign_convention (.ok "1/2 MARKET 5.00\n") 2024 _).2.2.2 (by decide)⟩

/-- C2 counterexample: the text consisting of the bare brand keyword chase
contains that keyword, yet the selector returns the generic fallback,
because the Chase detection predicate also demands a corroborating
keyword. -/
theorem spec_c2_counterexample :
    strContains (pyLower "chase") "chase" = true ∧
      getParser "chase" = StrategyKind.generic := ⟨by decide, by decide⟩

/-- C2 (amended): a text satisfying an institution detection predicate
(Chase: chase plus one of jpmorgan, jpmcb, credit card; Amex: american
express or amex; Truist: truist, bb and t, or suntrust) selects that
institution when no earlier strategy in the fixed order also matches, and
never selects the generic fallback. -/
theorem spec_c2_selector_detection :
    ∀ text : String,
      (chaseDetect text = true → getParser text = StrategyKind.chase) ∧
      (amexDetect text = true → chaseDetect text = false →
        getParser text = StrategyKind.amex) ∧
      (truistDetect text = true → chaseDetect text = false → amexDetect text = false →
        getParser text = StrategyKind.truist) ∧
      ((chaseDetect text = true ∨ amexDetect text = true ∨ truistDetect text = true) →
        getParser text ≠ StrategyKind.generic) := by
  intro text
  unfold getParser
  refine ⟨?_, ?_, ?_, ?_⟩
  · intro h
    rw [if_pos h]
  · intro h hc
    rw [if_neg (by simp [hc]), if_pos h]
  · intro h hc ha
    rw [if_neg (by simp [hc]), if_neg (by simp [ha]), if_pos h]
  · intro h hgen
    revert hgen
    split_ifs with h1 h2 h3 <;> simp_all

theorem spec_c2_witness :
    getParser "chase jpmorgan" = StrategyKind.chase ∧
    getParser "amex statement" = StrategyKind.amex ∧
    getParser "suntrust bank" = StrategyKind.truist ∧
    getParser "chase credit card" ≠ StrategyKind.generic :=
  ⟨(spec_c2_selector_detection "chase jpmorgan").1 (by decide),
   (spec_c2_selector_detection "amex statement").2.1 (by decide) (by decide),
   (spec_c2_selector_detection "suntrust bank").2.2.1 (by decide) (by decide) (by decide),
   (spec_c2_selector_detection "chase credit card").2.2.2 (Or.inl (by decide))⟩

/-- C3: the amount normalizer is total and maps the dollar-and-comma form
to its decimal value, the parenthesized form and the credit-suffix form to
negated values, and any input whose residual text is not numeric to
zero. -/
theorem spec_c3_amount_normalizer :
    parse_amount "$1,234.56" = 1234.56 ∧
    parse_amount "(12.00)" = -12 ∧
    parse_amount "45.00CR" = -45 ∧
    (∀ s, pyFloatOpt (amountResidual s) = none → parse_amount s = 0) := by
  refine ⟨by decide, by decide, by decide, ?_⟩
  intro s hs
  unfold parse_amount
  rw [hs]
  rfl

theorem spec_c3_witness : parse_amount "garbage" = 0 :=
  spec_c3_amount_normalizer.2.2.2 "garbage" (by decide)

/-- C4: the date normalizer tries the fixed ordered format list with the
first parsing format winning, applies the supplied year to year-less
formats, resolves the two concrete fixtures accordingly, and returns no
match rather than an error on unparsable input. -/
theorem spec_c4_date_normalizer :
    (∀ y, parse_date "03/15/2024" y = some ⟨2024, 3, 15⟩) ∧
    parse_date "03/15" (some 2023) = some ⟨2023, 3, 15⟩ ∧
    (∀ y, parse_date "not-a-date" y = none) ∧
    (∀ s y, parse_date s y =
      (tryFormat .mdY (pyStripL s.data) y).orElse (fun _ =>
        List.findSome? (fun f => tryFormat f (pyStripL s.data) y)
          [.mdy, .mdYdash, .mdydash, .md, .bd, .Bd, .db, .dB])) := by
  refine ⟨fun y => rfl, by decide, fun y => rfl, fun s y => ?_⟩
  unfold parse_date dateFormats
  rw [List.findSome?_cons]
  cases tryFormat .mdY (pyStripL s.data) y <;> rfl

/-- C5: for every strategy, the error message is present exactly when the
parse failed, and a failed parse carries no transactions. -/
theorem spec_c5_error_envelope :
    ∀ (doc : Except String String) (nowYear : Nat),
      (((chaseParse doc nowYear).error_message ≠ none ↔
          (chaseParse doc nowYear).success = false) ∧
        ((chaseParse doc nowYear).success = false →
          (chaseParse doc nowYear).transactions = [])) ∧
      (((amexParse doc nowYear).error_message ≠ none ↔
          (amexParse doc nowYear).success = false) ∧
        ((amexParse doc nowYear).success = false →
          (amexParse doc nowYear).transactions = [])) ∧
      (((truistParse doc nowYear).error_message ≠ none ↔
          (truistParse doc nowYear).success = false) ∧
        ((truistParse doc nowYear).success = false →
          (truistParse doc nowYear).transactions = [])) ∧
      (((genericParse doc nowYear).error_message ≠ none ↔
          (genericParse doc nowYear).success = false) ∧
        ((genericParse doc nowYear).success = false →
          (genericParse doc nowYear).transactions = [])) := by
  intro doc nowYear
  cases doc <;> simp [chaseParse, amexParse, truistParse, genericParse]

theorem spec_c5_witness :
    (chaseParse (.error "boom") 0).transactions = [] ∧
    (amexParse (.error "boom") 0).transactions = [] ∧
    (truistParse (.error "boom") 0).transactions = [] ∧
    (genericParse (.error "boom") 0).transactions = [] :=
  ⟨(spec_c5_error_envelope (.error "boom") 0).1.2 rfl,
   (spec_c5_error_envelope (.error "boom") 0).2.1.2 rfl,
   (spec_c5_error_envelope (.error "boom") 0).2.2.1.2 rfl,
   (spec_c5_error_envelope (.error "boom") 0).2.2.2.2 rfl⟩

/-- C6 counterexample: the Chase strategy performs no merchant-length
check, so a line with a two-character description is emitted as a
transaction whose merchant is shorter than the minimum. -/
theorem spec_c6_counterexample :
    ∃ t ∈ (chaseParse (.ok "01/02 AB 5.00\n") 2024).transactions, t.merchant.length < 3 :=
  ⟨⟨⟨2024, 1, 2⟩, "AB", 5, "purchase", "01/02 AB 5.00"⟩, by decide, by decide⟩

/-- C6 (amended): the Amex, Truist and generic strategies enforce the
minimum merchant length of three characters on the stripped description,
so none of them emits a transaction with a shorter merchant; the Chase
strategy has no such check and can emit shorter merchants. -/
theorem spec_c6_minimum_merchant_length :
    ∀ (doc : Except String String) (nowYear : Nat) (t : ExtractedTransaction),
      (t ∈ (amexParse doc nowYear).transactions → 3 ≤ t.merchant.length) ∧
      (t ∈ (truistParse doc nowYear).transactions → 3 ≤ t.merchant.length) ∧
      (t ∈ (genericParse doc nowYear).transactions → 3 ≤ t.merchant.length) := by
  intro doc nowYear t
  refine ⟨?_, ?_, ?_⟩ <;> intro ht
  · cases doc with
    | error e => simp [amexParse] at ht
    | ok text =>
      have ht2 : t ∈ amexTransactions text.data ((findYear text.data).getD nowYear) := by
        simpa [amexParse] using ht
      unfold amexTransactions at ht2
      try dsimp only at ht2
      split at ht2
      · obtain ⟨m, -, hm⟩ := List.mem_filterMap.mp ht2
        exact amexProcess_merchant_len hm
      · obtain ⟨m, -, hm⟩ := List.mem_filterMap.mp ht2
        exact amexProcess_merchant_len hm
  · cases doc with
    | error e => simp [truistParse] at ht
    | ok text =>
      have ht2 : t ∈ truistTransactions text.data ((findYear text.data).getD nowYear) := by
        simpa [truistParse] using ht
      unfold truistTransactions at ht2
      try dsimp only at ht2
      split at ht2
      · obtain ⟨m, -, hm⟩ := List.mem_filterMap.mp ht2
        exact truistProcess2_merchant_len hm
      · obtain ⟨m, -, hm⟩ := List.mem_filterMap.mp ht2
        exact truistProcess1_merchant_len hm
  · cases doc with
    | error e => simp [genericParse] at ht
    | ok text =>
      obtain ⟨m, -, hm⟩ := List.mem_filterMap.mp (by simpa [genericParse] using ht)
      exact genericProcess_merchant_len hm

theorem spec_c6_witness :
    3 ≤ (⟨⟨2024, 1, 2⟩, "BOOKSTORE", 5, "purchase",
      "01/02 BOOKSTORE 5.00"⟩ : ExtractedTransaction).merchant.length ∧
    3 ≤ (⟨⟨2024, 1, 2⟩, "GROCERY STORE", 50, "withdrawal",
      "01/02 GROCERY STORE 50.00 1,000.00"⟩ : ExtractedTransaction).merchant.length ∧
    3 ≤ (⟨⟨2024, 1, 2⟩, "MARKET", 5, "purchase",
      "1/2 MARKET 5.00"⟩ : ExtractedTransaction).merchant.length :=
  ⟨(spec_c6_minimum_merchant_length (.ok "01/02 BOOKSTORE 5.00\n") 2024 _).1 (by decide),
   (spec_c6_minimum_merchant_length
     (.ok "01/02 GROCERY STORE 50.00 1,000.00\n") 2024 _).2.1 (by decide),
   (spec_c6_minimum_merchant_length (.ok "1/2 MARKET 5.00\n") 2024 _).2.2 (by decide)⟩

/-- C7 counterexample: when the period end month is not a full month name,
the Chase strategy falls back to the bare four-digit year, which does not
have the year-dash-month shape. -/
theorem spec_c7_counterexample :
    (chaseParse (.ok "Statement Period: March 1, 2024 to Apr 15, 2024") 0).statement_period =
      some "2024" ∧ isYYYYMM "2024" = false := ⟨by decide, by decide⟩

/-- C7 (amended): a present statement period is the strftime rendering of
the period end year and month, which has the year-dash-month shape for all
end years of at least one thousand; the Chase strategy may instead emit
the bare four-digit year text when full-month-name parsing of the period
end fails. -/
theorem spec_c7_statement_period_shape :
    ∀ (doc : Except String String) (nowYear : Nat) (s : String),
      ((chaseParse doc nowYear).statement_period = some s →
        (∃ y m, 1 ≤ y ∧ y ≤ 9999 ∧ 1 ≤ m ∧ m ≤ 12 ∧ s = fmtYm y m) ∨
          (s.length = 4 ∧ ∀ c ∈ s.data, c.isDigit = true)) ∧
      ((amexParse doc nowYear).statement_period = some s →
        ∃ y m, 1 ≤ y ∧ y ≤ 9999 ∧ 1 ≤ m ∧ m ≤ 12 ∧ s = fmtYm y m) ∧
      ((truistParse doc nowYear).statement_period = some s →
        ∃ y m, 1 ≤ y ∧ y ≤ 9999 ∧ 1 ≤ m ∧ m ≤ 12 ∧ s = fmtYm y m) ∧
      (∀ y m, 1000 ≤ y → y ≤ 9999 → 1 ≤ m → m ≤ 12 → isYYYYMM (fmtYm y m) = true) := by
  intro doc nowYear s
  refine ⟨?_, ?_, ?_, fun y m h1 h2 h3 h4 => fmtYm_shape h1 h2 h3 h4⟩
  · intro hs
    cases doc with
    | error e => simp [chaseParse] at hs
    | ok text =>
      have hs2 : chasePeriodOut text.data = some s := by
        simpa [chaseParse] using hs
      unfold chasePeriodOut at hs2
      split at hs2
      · exact absurd hs2 (by simp)
      · rename_i pr hsearch
        split at hs2
        · rename_i d hbd
          rw [Option.some.injEq] at hs2
          subst hs2
          obtain ⟨hy1, hy2, hm1, hm2⟩ := strptimeBdY_bounds hbd
          exact Or.inl ⟨d.year, d.month, hy1, hy2, hm1, hm2, rfl⟩
        · rw [Option.some.injEq] at hs2
          subst hs2
          obtain ⟨hlen, hdig⟩ := searchAll_sat (fun cs0 p0 h0 => chasePeriodAt_sat h0) _ _ hsearch
          exact Or.inr ⟨hlen, hdig⟩
  · intro hs
    cases doc with
    | error e => simp [amexParse] at hs
    | ok text =>
      have hs2 : amexPeriodOut text.data = some s := by
        simpa [amexParse] using hs
      unfold amexPeriodOut at hs2
      split at hs2
      · exact absurd hs2 (by simp)
      · split at hs2
        · rename_i d hbd
          rw [Option.some.injEq] at hs2
          subst hs2
          obtain ⟨hy1, hy2, hm1, hm2⟩ := strptimeBdY_bounds hbd
          exact ⟨d.year, d.month, hy1, hy2, hm1, hm2, rfl⟩
        · exact absurd hs2 (by simp)
  · intro hs
    cases doc with
    | error e => simp [truistParse] at hs
    | ok text =>
      have hs2 : truistPeriodOut text.data = some s := by
        simpa [truistParse] using hs
      unfold truistPeriodOut at hs2
      split at hs2
      · exact absurd hs2 (by simp)
      · split at hs2
        · rename_i d hbd
          rw [Option.some.injEq] at hs2
          subst hs2
          obtain ⟨hy1, hy2, hm1, hm2⟩ := strptimeBdY_bounds hbd
          exact ⟨d.year, d.month, hy1, hy2, hm1, hm2, rfl⟩
        · exact absurd hs2 (by simp)

theorem spec_c7_witness :
    ((∃ y m, 1 ≤ y ∧ y ≤ 9999 ∧ 1 ≤ m ∧ m ≤ 12 ∧ "2024-04" = fmtYm y m) ∨
      (("2024-04" : String).length = 4 ∧ ∀ c ∈ ("2024-04" : String).data, c.isDigit = true)) ∧
    (∃ y m, 1 ≤ y ∧ y ≤ 9999 ∧ 1 ≤ m ∧ m ≤ 12 ∧ "2024-03" = fmtYm y m) ∧
    (∃ y m, 1 ≤ y ∧ y ≤ 9999 ∧ 1 ≤ m ∧ m ≤ 12 ∧ "2024-04" = fmtYm y m) ∧
    isYYYYMM (fmtYm 2024 4) = true :=
  ⟨(spec_c7_statement_period_shape
      (.ok "Statement Period: March 1, 2024 to April 15, 2024") 0 "2024-04").1 (by decide),
   (spec_c7_statement_period_shape
      (.ok "Closing Date: March 15, 2024") 0 "2024-03").2.1 (by decide),
   (spec_c7_statement_period_shape
      (.ok "Statement Period: March 1, 2024 through April 15, 2024") 0 "2024-04").2.2.1
      (by decide),
   (spec_c7_statement_period_shape (.error "x") 0 "x").2.2.2 2024 4 (by decide) (by decide)
      (by decide) (by decide)⟩

/-- C8: a present account identifier is exactly four characters for every
strategy, however many digits the account regex captured; the generic
strategy never sets one. -/
theorem spec_c8_account_identifier_length :
    ∀ (doc : Except String String) (nowYear : Nat) (s : String),
      ((chaseParse doc nowYear).account_identifier = some s → s.length = 4) ∧
      ((amexParse doc nowYear).account_identifier = some s → s.length = 4) ∧
      ((truistParse doc nowYear).account_identifier = some s → s.length = 4) ∧
      (genericParse doc nowYear).account_identifier = none := by
  intro doc nowYear s
  refine ⟨?_, ?_, ?_, ?_⟩
  · intro hs
    cases doc with
    | error e => simp [chaseParse] at hs
    | ok text =>
      have hs2 : searchAll chaseAccountAt text.data = some s := hs
      exact searchAll_sat (fun cs0 r0 h0 => chaseAccountAt_len h0) _ _ hs2
  · intro hs
    cases doc with
    | error e => simp [amexParse] at hs
    | ok text =>
      have hs2 : (searchAll amexAccountAt text.data).map (fun g => pyTakeLast g 4) = some s := hs
      obtain ⟨g, hg, hpt⟩ := Option.map_eq_some'.mp hs2
      rw [← hpt]
      exact pyTakeLast_length (searchAll_sat (fun cs0 r0 h0 => amexAccountAt_len h0) _ _ hg)
  · intro hs
    cases doc with
    | error e => simp [truistParse] at hs
    | ok text =>
      have hs2 : searchAll truistAccountAt text.data = some s := hs
      exact searchAll_sat (fun cs0 r0 h0 => truistAccountAt_len h0) _ _ hs2
  · cases doc <;> rfl

theorem spec_c8_witness :
    ("1234" : String).length = 4 ∧ ("2345" : String).length = 4 ∧
      ("9876" : String).length = 4 :=
  ⟨(spec_c8_account_identifier_length (.ok "Account 1234") 0 "1234").1 (by decide),
   (spec_c8_account_identifier_length (.ok "Card Ending 12345") 0 "2345").2.1 (by decide),
   (spec_c8_account_identifier_length (.ok "Account: 9876") 0 "9876").2.2.1 (by decide)⟩

/-- C9: for the strategies with several candidate patterns, the emitted
transaction list comes from the first pattern whose processed matches are
nonempty, never from a union of patterns: if the first pattern produces at
least one transaction the second is not used, and only when the first
produces none does the second supply the output. -/
theorem spec_c9_first_pattern_wins :
    ∀ (cs : List Char) (year : Nat),
      ((finditer amexTx1At cs).filterMap (amexProcess year) ≠ [] →
        amexTransactions cs year = (finditer amexTx1At cs).filterMap (amexProcess year)) ∧
      ((finditer amexTx1At cs).filterMap (amexProcess year) = [] →
        amexTransactions cs year = (finditer amexTx2At cs).filterMap (amexProcess year)) ∧
      ((finditer truistTx1At cs).filterMap (truistProcess1 year) ≠ [] →
        truistTransactions cs year =
          (finditer truistTx1At cs).filterMap (truistProcess1 year)) ∧
      ((finditer truistTx1At cs).filterMap (truistProcess1 year) = [] →
        truistTransactions cs year = (finditer simpleTxAt cs).filterMap (truistProcess2 year)) ∧
      (∀ (text : String) (nowYear : Nat), (amexParse (.ok text) nowYear).transactions =
        amexTransactions text.data ((findYear text.data).getD nowYear)) ∧
      (∀ (text : String) (nowYear : Nat), (truistParse (.ok text) nowYear).transactions =
        truistTransactions text.data ((findYear text.data).getD nowYear)) := by
  intro cs year
  refine ⟨?_, ?_, ?_, ?_, fun _ _ => rfl, fun _ _ => rfl⟩
  · intro h
    unfold amexTransactions
    try dsimp only
    rw [if_neg (by simp [List.isEmpty_iff, h])]
  · intro h
    unfold amexTransactions
    try dsimp only
    rw [if_pos (by simp [List.isEmpty_iff, h])]
  · intro h
    unfold truistTransactions
    try dsimp only
    rw [if_neg (by simp [List.isEmpty_iff, h])]
  · intro h
    unfold truistTransactions
    try dsimp only
    rw [if_pos (by simp [List.isEmpty_iff, h])]

theorem spec_c9_witness :
    amexTransactions "01/02 BOOKSTORE 5.00\n".data 2024 =
      (finditer amexTx1At "01/02 BOOKSTORE 5.00\n".data).filterMap (amexProcess 2024) ∧
    amexTransactions [] 2024 = (finditer amexTx2At []).filterMap (amexProcess 2024) ∧
    truistTransactions "01/02 GROCERY STORE 50.00 1,000.00\n".data 2024 =
      (finditer truistTx1At "01/02 GROCERY STORE 50.00 1,000.00\n".data).filterMap
        (truistProcess1 2024) ∧
    truistTransactions [] 2024 = (finditer simpleTxAt []).filterMap (truistProcess2 2024) :=
  ⟨(spec_c9_first_pattern_wins "01/02 BOOKSTORE 5.00\n".data 2024).1 (by decide),
   (spec_c9_first_pattern_wins [] 2024).2.1 (by decide),
   (spec_c9_first_pattern_wins "01/02 GROCERY STORE 50.00 1,000.00\n".data 2024).2.2.1
     (by decide),
   (spec_c9_first_pattern_wins [] 2024).2.2.2.1 (by decide)⟩

/-- C10: the generic fallback strategy extracts no metadata: for every
readable document its result has no account identifier, no statement
period, and the unknown account type. -/
theorem spec_c10_generic_no_metadata :
    ∀ (text : String) (nowYear : Nat),
      (genericParse (.ok text) nowYear).account_identifier = none ∧
      (genericParse (.ok text) nowYear).statement_period = none ∧
      (genericParse (.ok text) nowYear).account_type = "unknown" :=
  fun _ _ => ⟨rfl, rfl, rfl⟩
